import Mathlib

/-
Verification of the Centrifuge v2 client session engine
(src/unnamed/part_000, class Centrifuge).

The engine is embedded shallowly: the mutable fields of the Centrifuge
object become a Lean structure CState, and each method becomes a pure
function CState to CState times a trace of observable events (event
emissions, fired callbacks and promise settlements, transport actions).
Timers are modelled as armed/disarmed flags carrying the delay they were
armed with; a timer firing is a separate function modelling the timer
callback. External collaborators (transports, codec, token providers)
are out of scope per the design; their observable interactions appear as
trace events or as scripted flags on the state (transportSendFails).
-/

namespace Centrifuge

/-- Client states, from the `states` constant of the source. -/
inductive ClientState where
  | disconnected
  | connecting
  | connected
  | closed
deriving DecidableEq, Repr

/-- Close reasons, from the `closeReasons` constant of the source. -/
inductive CloseReason where
  | client
  | server
  | connectFailed
  | refreshFailed
  | unauthorized
  | unrecoverablePosition
deriving DecidableEq, Repr

/-- Error objects as built by `_createErrorObject(code, message, temporary)`. -/
structure ErrObj where
  code : Int
  message : String
  temporary : Bool := false
deriving DecidableEq, Repr

/-- `_createErrorObject(0, 'disconnected')`, fired by `_clearConnectedState`. -/
def disconnectedError : ErrObj := { code := 0, message := "disconnected" }

/-- `_createErrorObject(2, 'transport write error')`, fired by `_handleWriteError`. -/
def transportWriteError : ErrObj := { code := 2, message := "transport write error" }

/-- The rejection value of the `_methodCall` timeout timer. -/
def methodTimeoutError : ErrObj := { code := 0, message := "timeout" }

/-- Values a gated-call waiter promise can be rejected with:
either an error object or the object with a state field,
as in `_rejectPromises(\x7b state: states.CLOSED \x7d)`. -/
inductive RejectVal where
  | stateClosed
  | errVal (e : ErrObj)
deriving DecidableEq, Repr

/-- How a settled promise was settled (promises settle at most once). -/
inductive SettleRes where
  | resolvedS
  | rejectedS (v : RejectVal)
deriving DecidableEq, Repr

/-- Subscription states. The Subscription class lives in subscription.js,
which is not under src/. Modelled from the spec: per-channel state machine
with states UNSUBSCRIBED, SUBSCRIBING, SUBSCRIBED. -/
inductive SubSt where
  | unsubscribed
  | subscribing
  | subscribed
deriving DecidableEq, Repr

/-- A client-side subscription as seen by the session engine. Modelled from
the spec: channel state plus cached token, recovery flag and last known
stream position, which the engine reads in `_sendSubscribe`. -/
structure Sub where
  st : SubSt := .unsubscribed
  token : Option String := none
  hasData : Bool := false
  needRecover : Bool := false
  lastOffset : Option Nat := none
  lastEpoch : Option String := none
deriving DecidableEq, Repr

/-- A server-subscription registry entry, as stored in `this._serverSubs`. -/
structure ServerSub where
  offset : Option Nat := none
  epoch : Option String := none
  recoverable : Bool := false
deriving DecidableEq, Repr

/-- An in-flight command record from `_registerCall`: resolver, rejecter and a
timeout timer. The resolver and rejecter functions are represented by presence
flags; invoking them is a trace event. `_registerCall` always stores both. -/
structure CallbackRec where
  hasCallback : Bool := true
  hasErrback : Bool := true
  timeoutArmed : Bool := true
deriving DecidableEq, Repr

/-- A `_promises` record from `_methodCall` or `_connected`:
an optional timeout timer plus the promise settlement status
(a JS promise settles at most once; later resolve/reject calls no-op). -/
structure PromiseRec where
  timeoutDelay : Option Nat := none
  settled : Option SettleRes := none
deriving DecidableEq, Repr

/-- Command kinds of the wire envelope. -/
inductive CmdKind where
  | connectK
  | subscribeK
  | unsubscribeK
  | publishK
  | historyK
  | presenceK
  | presenceStatsK
  | rpcK
  | sendK
  | refreshK
  | subRefreshK
  | emptyK
deriving DecidableEq, Repr

/-- A command as queued/encoded: kind, optional id, and the request fields the
claims depend on (channel, recovery position, token presence). -/
structure Cmd where
  kind : CmdKind
  id : Option Nat := none
  channel : Option String := none
  hasToken : Bool := false
  recover : Bool := false
  offset : Option Nat := none
  epoch : Option String := none
deriving DecidableEq, Repr

/-- A publication push payload; data is an opaque tag. -/
structure Pub where
  dataTag : Nat := 0
  offset : Option Nat := none
  hasInfo : Bool := false
  hasTags : Bool := false
deriving DecidableEq, Repr

/-- The configuration options relevant to the claims, with the defaults of
the source constructor. privateChannelPfx is the source option named
after the private-channel marker (default dollar). -/
structure Config where
  minReconnectDelay : Nat := 500
  maxReconnectDelay : Nat := 20000
  timeout : Nat := 5000
  maxServerPingDelay : Nat := 10000
  pingInterval : Nat := 25000
  pongWaitTimeout : Nat := 10000
  privateChannelPfx : String := "$"
deriving DecidableEq, Repr

/-- Observable events: EventEmitter emissions, fired call resolvers/rejecters,
promise settlements, transport actions and, for the position claims, a marker
recording the moment a server-subscription offset is assigned. -/
inductive Ev where
  | stateEv (state prevState : ClientState)
  | disconnectEv (code : Int) (reason : String) (reconnect : Bool)
  | closeEv (reason : CloseReason)
  | errback (id : Nat) (err : ErrObj)
  | subUnsubscribeEv (channel : String)
  | unsubscribeEv (channel : String)
  | connectEv (client : String)
  | subscribeEv (channel : String)
  | publicationEv (channel : String) (dataTag : Nat) (offset : Option Nat)
  | posUpdate (channel : String) (offset : Nat)
  | joinEv (channel : String)
  | leaveEv (channel : String)
  | subDelegate (channel : String)
  | tokenRequested (channel : String)
  | transportClosedEv
  | transportInitEv
  | transportWrite (count : Nat)
  | promiseResolved (id : Nat)
  | promiseRejected (id : Nat) (v : RejectVal)
  | cmdIssued (id : Nat)
deriving DecidableEq, Repr

/-- The mutable state of a Centrifuge instance (constructor fields).
Timer handles are modelled as the delay the timer was armed with
(none = disarmed); the reconnect timer delay comes from jittered backoff and
is modelled as a plain armed flag. transportSendFails scripts whether
transport.send throws synchronously. -/
structure CState where
  state : ClientState := .disconnected
  emulation : Bool := false
  currentTransportIndex : Nat := 0
  transportsLen : Nat := 0
  transportWasOpen : Bool := false
  lastDisconnectCode : Int := -1
  transportPresent : Bool := false
  transportClosed : Bool := true
  transportSendFails : Bool := false
  commandId : Nat := 0
  client : Option String := none
  session : String := ""
  node : String := ""
  refreshRequired : Bool := false
  subs : List (String × Sub) := []
  serverSubs : List (String × ServerSub) := []
  commands : List Cmd := []
  isBatching : Bool := false
  refreshTimeout : Option Nat := none
  pingTimeout : Option Nat := none
  pongTimeout : Option Nat := none
  reconnectTimeout : Bool := false
  reconnectAttempts : Nat := 0
  callbacks : List (Nat × CallbackRec) := []
  token : Option String := none
  serverPing : Nat := 0
  sendPong : Bool := false
  serverPingTimeout : Option Nat := none
  promises : List (Nat × PromiseRec) := []
  promiseId : Nat := 0
  config : Config := {}
deriving DecidableEq, Repr

/-! ### Association-list helpers (JS objects keyed by id or channel,
preserving insertion order as JS objects do). -/

def aget {κ α : Type} [DecidableEq κ] (k : κ) : List (κ × α) → Option α
  | [] => none
  | (k2, v) :: rest => if k2 = k then some v else aget k rest

def aset {κ α : Type} [DecidableEq κ] (k : κ) (v : α) : List (κ × α) → List (κ × α)
  | [] => [(k, v)]
  | (k2, v2) :: rest => if k2 = k then (k, v) :: rest else (k2, v2) :: aset k v rest

def adel {κ α : Type} [DecidableEq κ] (k : κ) : List (κ × α) → List (κ × α)
  | [] => []
  | (k2, v2) :: rest => if k2 = k then rest else (k2, v2) :: adel k rest

/-! ### Small state helpers -/

/-- `_setState(newState)`: change state and emit a state event when different. -/
def setState (s : CState) (newState : ClientState) : CState × List Ev :=
  if s.state ≠ newState then
    ({ s with state := newState }, [Ev.stateEv newState s.state])
  else (s, [])

/-- `_stopPing()`: clear the server-ping, pong and ping timers. -/
def stopPing (s : CState) : CState :=
  { s with serverPingTimeout := none, pongTimeout := none, pingTimeout := none }

/-- Closing the owned transport if present and not already closed
(lines 1082-1085 of `_disconnect`, and the code -1 branch). -/
def closeTransport (s : CState) : CState × List Ev :=
  if s.transportPresent = true ∧ s.transportClosed = false then
    ({ s with transportClosed := true }, [Ev.transportClosedEv])
  else (s, [])

/-- The rejecter firings of the `_clearConnectedState` loop over
`this._callbacks`: each record with an errback fires it once with the
disconnected error (insertion order). -/
def errbTrace (cbs : List (Nat × CallbackRec)) : List Ev :=
  cbs.filterMap fun p =>
    if p.2.hasErrback then some (Ev.errback p.1 disconnectedError) else none

/-- The per-subscription state updates of the `_clearConnectedState` loop:
subscribed subscriptions become unsubscribed (when clearClientSubs) or
subscribing; others are untouched. -/
def clearSubsNew (clearClientSubs : Bool) (subs : List (String × Sub)) :
    List (String × Sub) :=
  subs.map fun p =>
    if p.2.st = .subscribed then
      (p.1, { p.2 with st := if clearClientSubs then .unsubscribed else .subscribing })
    else p

/-- The unsubscribe events triggered by that loop (one per subscribed sub). -/
def clearSubsTrace (subs : List (String × Sub)) : List Ev :=
  subs.filterMap fun p =>
    if p.2.st = .subscribed then some (Ev.subUnsubscribeEv p.1) else none

/-- `_clearConnectedState(reconnect, clearServerSubs, clearClientSubs)`:
drop the client id, stop ping timers, clear the refresh timer, clear the
reconnect timer unless reconnecting, fire the rejecter of every in-flight
command with a disconnected error and empty the callback table, fire
unsubscribe events for subscribed subscriptions and for server-side
subscriptions (the latter only while still CONNECTED), and optionally clear
the client- and server-subscription registries. -/
def clearConnectedState (s : CState)
    (reconnect clearServerSubs clearClientSubs : Bool) : CState × List Ev :=
  let s1 := { s with client := none }
  let s2 := stopPing s1
  let s3 := { s2 with refreshTimeout := none }
  let s4 := if reconnect = false then { s3 with reconnectTimeout := false } else s3
  let trE := errbTrace s4.callbacks
  let s5 := { s4 with callbacks := [] }
  let trS := clearSubsTrace s5.subs
  let s6 := { s5 with subs := clearSubsNew clearClientSubs s5.subs }
  let trU := if s6.state = .connected then s6.serverSubs.map (fun p => Ev.unsubscribeEv p.1)
             else []
  let s7 := if clearClientSubs then { s6 with subs := [] } else s6
  let s8 := if clearServerSubs then { s7 with serverSubs := [] } else s7
  (s8, trE ++ trS ++ trU)

/-- `_resolvePromises()`: clear each waiter timer, resolve each still-pending
waiter (settled promises ignore the resolve call) and empty the table. -/
def resolvePromisesF (s : CState) : CState × List Ev :=
  let tr := s.promises.filterMap fun p =>
    if p.2.settled = none then some (Ev.promiseResolved p.1) else none
  ({ s with promises := [] }, tr)

/-- `_rejectPromises(err)`: clear each waiter timer, reject each still-pending
waiter with err and empty the table. -/
def rejectPromisesF (s : CState) (v : RejectVal) : CState × List Ev :=
  let tr := s.promises.filterMap fun p =>
    if p.2.settled = none then some (Ev.promiseRejected p.1 v) else none
  ({ s with promises := [] }, tr)

/-- `_disconnect(code, reason, shouldReconnect, clearServerSubs,
clearClientSubs)`, with a fuel bound on the (bounded) mutual recursion with
`_close`: the nested close happens at most twice deep, so any fuel of at
least 4 computes the source behavior.

The source computes `isNewDisconnect` as
`this._isConnecting && (...)` where `this._isConnecting` is a reference to
the method (not a call), hence always truthy; only the code test matters. -/
def disconnectF (fuel : Nat) (s : CState) (code : Int) (reason : String)
    (shouldReconnect clearServerSubs clearClientSubs : Bool) : CState × List Ev :=
  let reconnect := shouldReconnect
  if s.state = .disconnected ∨ s.state = .closed then
    if reconnect = false then clearConnectedState s reconnect clearServerSubs clearClientSubs
    else (s, [])
  else if code = -1 then
    -- initial handshake while trying different transports
    let r1 := clearConnectedState s reconnect clearServerSubs clearClientSubs
    let r2 := closeTransport r1.1
    (r2.1, r1.2 ++ r2.2)
  else
    let r1 := clearConnectedState s reconnect clearServerSubs clearClientSubs
    let isNewDisconnect :=
      r1.1.lastDisconnectCode = -1 ∨ (r1.1.lastDisconnectCode ≠ code ∧ code ≥ 3000)
    let wasConnected := r1.1.state = .connected
    let needDisconnectEvent := wasConnected ∨ isNewDisconnect
    if shouldReconnect then
      let r2 := setState r1.1 .connecting
      let r3 :=
        if needDisconnectEvent then
          ({ r2.1 with lastDisconnectCode := code }, [Ev.disconnectEv code reason reconnect])
        else (r2.1, ([] : List Ev))
      let r4 := closeTransport r3.1
      (r4.1, r1.2 ++ r2.2 ++ r3.2 ++ r4.2)
    else
      let r2 := setState r1.1 .disconnected
      let r3 :=
        if needDisconnectEvent then
          match fuel with
          | 0 => (r2.1, [Ev.disconnectEv code reason reconnect])
          | f + 1 =>
            -- nested this._close(closeReasons.SERVER, true, true)
            let ra := disconnectF f r2.1 0 "closing" false true true
            let rb := setState ra.1 .closed
            let rc := rejectPromisesF rb.1 .stateClosed
            (rc.1, Ev.disconnectEv code reason reconnect ::
                     (ra.2 ++ rb.2 ++ [Ev.closeEv .server] ++ rc.2))
        else (r2.1, ([] : List Ev))
      let r4 := closeTransport r3.1
      (r4.1, r1.2 ++ r2.2 ++ r3.2 ++ r4.2)

/-- `_close(reason, clearServerSubs, clearClientSubs)`: disconnect without
reconnect, transition to CLOSED, emit a close event with the reason, and
reject pending connected-waiters with the closed state. -/
def closeF (fuel : Nat) (s : CState) (reason : CloseReason)
    (clearServerSubs clearClientSubs : Bool) : CState × List Ev :=
  let r1 := disconnectF fuel s 0 "closing" false clearServerSubs clearClientSubs
  let r2 := setState r1.1 .closed
  let r3 := rejectPromisesF r2.1 .stateClosed
  (r3.1, r1.2 ++ r2.2 ++ [Ev.closeEv reason] ++ r3.2)

/-- `disconnect()` (public): `_disconnect(0, 'client disconnect', false, false, false)`. -/
def disconnectUser (fuel : Nat) (s : CState) : CState × List Ev :=
  disconnectF fuel s 0 "client disconnect" false false false

/-- `close()` (public): `_close(closeReasons.CLIENT, true, false)`. -/
def closeUser (fuel : Nat) (s : CState) : CState × List Ev :=
  closeF fuel s .client true false

/-- `_handleDisconnect(disconnect)` (disconnect push): terminal server codes
3500-3999 and 4500-4999 suppress reconnect. -/
def handleDisconnect (fuel : Nat) (s : CState) (code : Int) (reason : String) :
    CState × List Ev :=
  let needReconnect :=
    if (3500 ≤ code ∧ code < 4000) ∨ (4500 ≤ code ∧ code < 5000) then false else true
  disconnectF fuel s code reason needReconnect false false

/-! ### Command multiplexer and transport write path -/

/-- JS `for (let command in commands)` in `_handleWriteError` iterates the
enumerable KEYS of the array, i.e. the index strings "0", "1", ...;
the loop variable is a string, not a command object. -/
def forInKeys (commands : List Cmd) : List String :=
  (List.range commands.length).map toString

/-- Property access `command.id` where `command` is an index string:
a string has no id property, so the result is undefined (none). -/
def idPropOfString (_k : String) : Option Nat := none

/-- `_handleWriteError(commands)` as written in the source: iterate with
`for (let command in commands)` (index strings), read `command.id`
(undefined), test `id in this._callbacks` (never true for the undefined
key) and otherwise remove the record, cancel its timer and fire its
rejecter with the transport write error. -/
def handleWriteError (s : CState) (commands : List Cmd) : CState × List Ev :=
  (forInKeys commands).foldl
    (fun acc k =>
      match idPropOfString k with
      | none => acc         -- `undefined in this._callbacks` is false: continue
      | some id =>
        match aget id acc.1.callbacks with
        | none => acc
        | some rec2 =>
          ({ acc.1 with callbacks := adel id acc.1.callbacks },
           acc.2 ++ (if rec2.hasErrback then [Ev.errback id transportWriteError] else [])))
    (s, [])

/-- `_transportSendCommands(commands)`: empty frames succeed trivially;
otherwise encode and send, and on a synchronous throw run
`_handleWriteError` and report failure. -/
def transportSendCommands (s : CState) (commands : List Cmd) :
    CState × List Ev × Bool :=
  if commands.isEmpty then (s, [], true)
  else if s.transportSendFails then
    let r1 := handleWriteError s commands
    (r1.1, r1.2, false)
  else (s, [Ev.transportWrite commands.length], true)

/-- `_registerCall(id, callback, errback)`: store both resolvers and arm the
per-command timeout timer with the configured call timeout. -/
def registerCall (s : CState) (id : Nat) : CState :=
  { s with callbacks := aset id { hasCallback := true, hasErrback := true,
                                  timeoutArmed := true } s.callbacks }

/-- `_addCommand(command)`: buffer while batching, else write immediately. -/
def addCommand (s : CState) (cmd : Cmd) : CState × List Ev :=
  if s.isBatching then ({ s with commands := s.commands ++ [cmd] }, [])
  else
    let r := transportSendCommands s [cmd]
    (r.1, r.2.1)

/-- `_call(cmd)`: allocate the next command id, register the in-flight
record, and hand the command to `_addCommand`. -/
def callF (s : CState) (cmd : Cmd) : CState × List Ev :=
  let id := s.commandId + 1
  let s1 := { s with commandId := id }
  let s2 := registerCall s1 id
  addCommand s2 { cmd with id := some id }

/-- `_flush()`: take the batch buffer and write it as a single frame. -/
def flushF (s : CState) : CState × List Ev :=
  let commands := s.commands
  let s1 := { s with commands := [] }
  let r := transportSendCommands s1 commands
  (r.1, r.2.1)

/-- `stopBatching()`: stop buffering and flush. -/
def stopBatching (s : CState) : CState × List Ev :=
  flushF { s with isBatching := false }

/-! ### Gated calls (`_methodCall` and the `_promises` table) -/

/-- The immediate outcome of `_methodCall()`: proceed now (already CONNECTED)
or wait on a freshly registered single-shot waiter promise. -/
inductive MethodCallRes where
  | proceed
  | waiter (id : Nat)
deriving DecidableEq, Repr

/-- `_methodCall()`: resolve immediately when CONNECTED; otherwise register a
waiter promise in `this._promises` with a timeout timer armed to the
configured call timeout. -/
def methodCall (s : CState) : CState × MethodCallRes :=
  if s.state = .connected then (s, .proceed)
  else
    let id := s.promiseId + 1
    ({ s with promiseId := id,
              promises := aset id { timeoutDelay := some s.config.timeout } s.promises },
     .waiter id)

/-- The `_methodCall` timeout timer firing: reject the waiter with the
timeout error. The source callback rejects without deleting the record;
the record stays in the table, settled, and later resolve/reject calls on
it are no-ops. A cleared timer (record deleted by resolve/rejectPromises)
cannot fire. -/
def promiseTimerFire (s : CState) (id : Nat) : CState × List Ev :=
  match aget id s.promises with
  | none => (s, [])
  | some rec2 =>
    match rec2.timeoutDelay with
    | none => (s, [])
    | some _ =>
      match rec2.settled with
      | some _ => (s, [])
      | none =>
        let rec3 : PromiseRec :=
          { rec2 with settled := some (.rejectedS (.errVal methodTimeoutError)),
                      timeoutDelay := none }
        ({ s with promises := aset id rec3 s.promises },
         [Ev.promiseRejected id (.errVal methodTimeoutError)])

/-! ### Subscriptions (engine side) -/

/-- `this._serverSubs[channel] !== undefined`. -/
def isServerSub (s : CState) (channel : String) : Bool :=
  (aget channel s.serverSubs).isSome

/-- `_sendSubscribe(sub, token)`: build the subscribe request (channel, token,
data, and when recovery is needed the last known offset and epoch) and issue
it through `_call`. The reply continuation is the registered callback. -/
def sendSubscribe (s : CState) (channel : String) (withToken : Bool) : CState × List Ev :=
  match aget channel s.subs with
  | none => (s, [])
  | some sub =>
    let cmd : Cmd :=
      { kind := .subscribeK, channel := some channel, hasToken := withToken,
        recover := sub.needRecover,
        offset := if sub.needRecover then sub.lastOffset else none,
        epoch := if sub.needRecover then sub.lastEpoch else none }
    callF s cmd

/-- `_subscribe(sub)` for a subscription already present in the registry
(the resubscription loop of `_connectResponse` passes registered subs):
nothing is sent while not CONNECTED; private channels (name starting with
the configured private prefix) send with the cached token or first request
one from the provider (an external async step, traced); others subscribe
directly. -/
def subscribeF (s : CState) (channel : String) : CState × List Ev :=
  if s.state = .connected then
    match aget channel s.subs with
    | none => (s, [])
    | some sub =>
      if s.config.privateChannelPfx.isPrefixOf channel then
        match sub.token with
        | some _ => sendSubscribe s channel true
        | none => (s, [Ev.tokenRequested channel])
      else sendSubscribe s channel false
  else (s, [])

/-- The resubscription loop of `_connectResponse`: every registered
subscription in SUBSCRIBING state is driven through `_subscribe`. -/
def resubscribeAll (s : CState) : CState × List Ev :=
  s.subs.foldl
    (fun acc p =>
      match aget p.1 acc.1.subs with
      | some sub =>
        if sub.st = .subscribing then
          let r := subscribeF acc.1 p.1
          (r.1, acc.2 ++ r.2)
        else acc
      | none => acc)
    (s, [])

/-! ### Push handlers -/

/-- `_handlePublication(channel, pub)`: with no client-side subscription but a
server-side one, emit the publication event and then assign the stored offset
when the publication carries one (the epoch is not touched); with a client-side
subscription, delegate to the Subscription object (subscription.js, outside
src/). The posUpdate marker records the moment of the offset assignment. -/
def handlePublication (s : CState) (channel : String) (pub : Pub) : CState × List Ev :=
  match aget channel s.subs with
  | none =>
    if isServerSub s channel then
      let tr1 := [Ev.publicationEv channel pub.dataTag pub.offset]
      match pub.offset with
      | some off =>
        let newSubs := s.serverSubs.map
          fun p => if p.1 = channel then (p.1, { p.2 with offset := some off }) else p
        ({ s with serverSubs := newSubs }, tr1 ++ [Ev.posUpdate channel off])
      | none => (s, tr1)
    else (s, [])
  | some _ => (s, [Ev.subDelegate channel])

/-- `_handleJoin(channel, join)`: with no client-side subscription but a
server-side one, emit the join event (no stored state changes); with a
client-side subscription, delegate to the Subscription object. -/
def handleJoin (s : CState) (channel : String) : CState × List Ev :=
  match aget channel s.subs with
  | none => if isServerSub s channel then (s, [Ev.joinEv channel]) else (s, [])
  | some _ => (s, [Ev.subDelegate channel])

/-- `_handleLeave(channel, leave)`: symmetric to `_handleJoin`. -/
def handleLeave (s : CState) (channel : String) : CState × List Ev :=
  match aget channel s.subs with
  | none => if isServerSub s channel then (s, [Ev.leaveEv channel]) else (s, [])
  | some _ => (s, [Ev.subDelegate channel])

/-! ### Keepalive -/

/-- `_waitServerPing()`: disabled when maxServerPingDelay is 0; only armed
while CONNECTED; re-arms the watchdog to serverPing + maxServerPingDelay
milliseconds (serverPing already in ms). -/
def waitServerPing (s : CState) : CState × List Ev :=
  if s.config.maxServerPingDelay = 0 then (s, [])
  else if s.state ≠ .connected then (s, [])
  else ({ s with serverPingTimeout := some (s.serverPing + s.config.maxServerPingDelay) }, [])

/-- The server-ping watchdog firing: when no longer CONNECTED just stop ping
timers; otherwise disconnect with code 11, reason no ping, and reconnect. -/
def serverPingFire (fuel : Nat) (s : CState) : CState × List Ev :=
  let s0 := { s with serverPingTimeout := none }
  if s0.state ≠ .connected then (stopPing s0, [])
  else disconnectF fuel s0 11 "no ping" true false false

/-- `_startClientPing()`: client-driven keepalive, armed only when a positive
pingInterval is configured and the client is CONNECTED. -/
def startClientPing (s : CState) : CState × List Ev :=
  if s.config.pingInterval = 0 then (s, [])
  else if s.state ≠ .connected then (s, [])
  else ({ s with pingTimeout := some s.config.pingInterval }, [])

/-- `_restartPing()`: stop all ping timers and restart the client ping. -/
def restartPing (s : CState) : CState × List Ev :=
  startClientPing (stopPing s)

/-! ### Connect response, server subs, connect error -/

/-- The connect reply result as read by `_connectResponse`; server-announced
subscriptions carry recovery state and replayed publications. -/
structure ServerSubResult where
  recovered : Bool := false
  publications : List Pub := []
  offset : Option Nat := none
  epoch : Option String := none
  recoverable : Bool := false
  positioned : Bool := false
deriving DecidableEq, Repr

structure ConnectResult where
  client : String := ""
  session : String := ""
  node : String := ""
  expires : Bool := false
  ttl : Nat := 0
  subs : Option (List (String × ServerSubResult)) := none
  ping : Nat := 0
  pong : Bool := false
deriving DecidableEq, Repr

/-- Modelled from the spec: utils.ttlMilliseconds (utils.js is not under
src/) converts a server ttl in seconds to milliseconds clamped to the
platform maximum single-shot timer duration of 2^31 - 1 ms. -/
def ttlMilliseconds (ttl : Nat) : Nat := min (ttl * 1000) 2147483647

/-- `_processServerSubs(subs)`: first emit a subscribe event per announced
channel, then per channel replay the publications of recovered channels
through `_handlePublication` and record the offset, epoch, recoverable entry
in the server-subscription registry. -/
def processServerSubs (s : CState) (subs : List (String × ServerSubResult)) :
    CState × List Ev :=
  let tr1 := subs.map fun p => Ev.subscribeEv p.1
  let r2 :=
    subs.foldl
      (fun acc p =>
        let r1 :=
          if p.2.recovered then
            p.2.publications.foldl
              (fun acc2 pub =>
                let rb := handlePublication acc2.1 p.1 pub
                (rb.1, acc2.2 ++ rb.2))
              (acc.1, ([] : List Ev))
          else (acc.1, ([] : List Ev))
        let entry : ServerSub :=
          { offset := p.2.offset, epoch := p.2.epoch, recoverable := p.2.recoverable }
        ({ r1.1 with serverSubs := aset p.1 entry r1.1.serverSubs }, acc.2 ++ r1.2))
      (s, [])
  (r2.1, tr1 ++ r2.2)

/-- The body of `_connectResponse(result)` up to and including the
server-subscription processing (the keepalive installation follows). -/
def connectResponseMain (s0 : CState) (result : ConnectResult) : CState × List Ev :=
  let s1 := { s0 with client := some result.client }
  let r2 := setState s1 .connected
  let s3 := { r2.1 with refreshTimeout := none }   -- clearTimeout on any pending refresh
  let s4 := if result.expires
            then { s3 with refreshTimeout := some (ttlMilliseconds result.ttl) }
            else s3
  let s5 := { s4 with session := result.session, node := result.node }
  let s6 := { s5 with isBatching := true }         -- startBatching()
  let r7 := resubscribeAll s6
  let r8 := stopBatching r7.1
  let tr9 := [Ev.connectEv result.client]
  let r10 := resolvePromisesF r8.1
  let r11 :=
    match result.subs with
    | some subs => processServerSubs r10.1 subs
    | none => (r10.1, ([] : List Ev))
  (r11.1, r2.2 ++ r7.2 ++ r8.2 ++ tr9 ++ r10.2 ++ r11.2)

/-- `_connectResponse(result)`: mark the transport open, reset the attempt
counter and the refresh-required flag; when not already CONNECTED record the
client id, transition to CONNECTED, schedule token refresh when the reply
expires, record session and node, resubscribe every SUBSCRIBING client
subscription inside one batch, emit the connect event, resolve pending
connected-waiters, process announced server subscriptions, and install the
keepalive: server-ping mode with the watchdog when the reply carries a
positive ping, client ping otherwise. Latency bookkeeping (wall-clock) is
not modelled. -/
def connectResponse (s : CState) (result : ConnectResult) : CState × List Ev :=
  let s0 := { s with transportWasOpen := true, reconnectAttempts := 0,
                     refreshRequired := false }
  if s0.state = .connected then (s0, [])
  else
    let rA := connectResponseMain s0 result
    let r12 :=
      if result.ping > 0 then
        let sa := { rA.1 with serverPing := result.ping * 1000, sendPong := result.pong }
        waitServerPing sa
      else
        let sa := { rA.1 with serverPing := 0 }
        startClientPing sa
    (r12.1, rA.2 ++ r12.2)

/-- `_connectError(err)`: code 112 fatal-closes with UNRECOVERABLE_POSITION;
code 109 marks the connection token as requiring refresh; codes below 100,
temporary errors and code 109 disconnect with reconnect (code -1 instead of 6
during the emulation initial handshake); all other permanent codes close with
CONNECT_FAILED. -/
def connectError (fuel : Nat) (s : CState) (err : ErrObj) : CState × List Ev :=
  let isInitialHandshake :=
    err.code < 100 ∧ s.emulation = true ∧ s.transportWasOpen = false ∧
      s.currentTransportIndex < s.transportsLen
  if err.code = 112 then closeF fuel s .unrecoverablePosition true false
  else
    let s1 := if err.code = 109 then { s with refreshRequired := true } else s
    let disconnectCode : Int := if isInitialHandshake then -1 else 6
    if err.code < 100 ∨ err.temporary = true ∨ err.code = 109 then
      disconnectF fuel s1 disconnectCode "connect error" true false false
    else
      -- _closeConnectFailed()
      closeF fuel s1 .connectFailed false false

/-! ### connect() and the serial dispatch machine -/

/-- `_initializeTransport()`, reduced to its state effect on the session:
a transport object is constructed and owned. The connect command
construction and the installed open/close/message callbacks interact with
the external transport and are modelled at their call sites. -/
def initTransport (s : CState) : CState × List Ev :=
  ({ s with transportPresent := true }, [Ev.transportInitEv])

/-- `_startConnecting()`: transition to CONNECTING, drop the client id and
initialize a transport. -/
def startConnecting (s : CState) : CState × List Ev :=
  let r1 := setState s .connecting
  let s2 := { r1.1 with client := none }
  let r3 := initTransport s2
  (r3.1, r1.2 ++ r3.2)

/-- `connect()` (public): a no-op while CONNECTED or CONNECTING. -/
def connectF (s : CState) : CState × List Ev :=
  if s.state = .connected then (s, [])
  else if s.state = .connecting then (s, [])
  else startConnecting s

/-- An action a dispatched handler performs: emit an application-visible
event (tagged) or invoke its next continuation. In the source every handler
emits its events and then calls next exactly once at the end
(`_handlePush`, `_handleServerPing`, and the reply continuations of
`_callPromise` and friends). -/
inductive HAct where
  | emitA (tag : Nat)
  | nextA
deriving DecidableEq, Repr

/-- Steps observable from the serial dispatch chain of
`_dispatchSynchronized`: item processing begins, an event is emitted, an
item handler resolves its next continuation. -/
inductive DStep where
  | beginStep (i : Nat)
  | emitStep (tag : Nat)
  | nextStep (i : Nat)
deriving DecidableEq, Repr

/-- The dispatcher state: trace so far, the item currently being processed
(none between items), and the decoded items still queued. -/
structure DispSt where
  trace : List DStep := []
  current : Option (Nat × List HAct) := none
  queue : List (Nat × List HAct) := []
deriving DecidableEq, Repr

/-- One step of the rolling promise chain
`p = p.then(() => this._dispatchReply(replies[i]))`: while an item is
current its handler runs; its nextA resolves the item promise, letting the
chain move on; a handler that never calls next stalls the chain (no step);
with no current item the next queued item is begun in decoded order. -/
def dstep (st : DispSt) : Option DispSt :=
  match st.current with
  | some (i, HAct.emitA t :: rest) =>
    some { st with trace := st.trace ++ [DStep.emitStep t], current := some (i, rest) }
  | some (i, HAct.nextA :: _) =>
    some { st with trace := st.trace ++ [DStep.nextStep i], current := none }
  | some (_, []) => none
  | none =>
    match st.queue with
    | [] => none
    | (i, acts) :: q =>
      some { st with trace := st.trace ++ [DStep.beginStep i],
                     current := some (i, acts), queue := q }

/-- Run the dispatch chain for a bounded number of steps. -/
def runD (fuel : Nat) (st : DispSt) : DispSt :=
  match fuel with
  | 0 => st
  | n + 1 =>
    match dstep st with
    | none => st
    | some st2 => runD n st2

/-- The number of steps a full dispatch of the given items takes. -/
def dsize (items : List (Nat × List HAct)) : Nat :=
  items.foldr (fun p a => p.2.length + 1 + a) 0

/-- A well-formed item: its handler emits its events and then calls next
exactly once, at the end. -/
def wfItem (p : Nat × List HAct) : Prop :=
  ∃ es : List Nat, p.2 = es.map HAct.emitA ++ [HAct.nextA]

/-- The trace one item contributes: begin, its handler actions in order. -/
def itemTrace (p : Nat × List HAct) : List DStep :=
  DStep.beginStep p.1 ::
    p.2.map (fun a => match a with
      | HAct.emitA t => DStep.emitStep t
      | HAct.nextA => DStep.nextStep p.1)

/-- The wire-order trace: items contribute their traces in decoded order. -/
def canonicalTrace (items : List (Nat × List HAct)) : List DStep :=
  (items.map itemTrace).flatten

/-- The application-visible emissions of a dispatch trace. -/
def emitsOf (tr : List DStep) : List Nat :=
  tr.filterMap fun st => match st with
    | DStep.emitStep t => some t
    | _ => none

/-- The emissions a handler performs. -/
def actEmits (acts : List HAct) : List Nat :=
  acts.filterMap fun a => match a with
    | HAct.emitA t => some t
    | _ => none

/-- `_dataReceived(data)`: re-arm the keepalive (server-ping watchdog in
server-ping mode, client ping otherwise), then decode the frame and push
the decoded items through the serial dispatch chain. -/
def dataReceived (s : CState) (items : List (Nat × List HAct)) :
    CState × List Ev × List DStep :=
  let r1 := if s.serverPing > 0 then waitServerPing s else restartPing s
  (r1.1, r1.2, (runD (dsize items) { queue := items }).trace)

/-- Preservation of the fields the keepalive claims read: state machine
state, configuration and the server-ping watchdog timer. -/
def Keeps (a b : CState) : Prop :=
  b.state = a.state ∧ b.config = a.config ∧ b.serverPingTimeout = a.serverPingTimeout

def c10s : CState := { state := .connecting, config := { maxServerPingDelay := 0 } }

def c10r : ConnectResult := { client := "c1", ping := 25, pong := true }

def c7s : CState := { state := .connecting }

def c7r : ConnectResult := { client := "c1", session := "s", node := "n", ping := 25, pong := true }

def c6rec : CallbackRec := { hasCallback := true, hasErrback := true, timeoutArmed := true }

def c6state : CState :=
  { state := .connected, transportSendFails := true, callbacks := [(1, c6rec)] }

def c6cmd : Cmd := { kind := .publishK, id := some 1 }

def c5sub : ServerSub := { offset := some 10, epoch := some "e", recoverable := true }

def c5state : CState :=
  { state := .connected, serverSubs := [("chan", c5sub)],
    transportPresent := true, transportClosed := false }

def isPosUpdate (channel : String) (e : Ev) : Bool :=
  match e with
  | Ev.posUpdate c _ => c = channel
  | _ => false

def isPubEmit (channel : String) (e : Ev) : Bool :=
  match e with
  | Ev.publicationEv c _ _ => c = channel
  | _ => false

/-- A trace updates the stored position of a channel before emitting its
publication event. -/
def updateBeforeEmit (evs : List Ev) (channel : String) : Prop :=
  ∃ i j : Fin evs.length, (i : Nat) < (j : Nat) ∧
    isPosUpdate channel (evs.get i) = true ∧ isPubEmit channel (evs.get j) = true

instance (evs : List Ev) (channel : String) : Decidable (updateBeforeEmit evs channel) := by
  unfold updateBeforeEmit
  infer_instance

def c9state : CState :=
  { state := .connected, serverSubs := [("chan", c5sub)] }

def c9pub : Pub := { dataTag := 7, offset := some 11 }

def c8sub : Sub := { st := .subscribing }

def c8state : CState :=
  { state := .disconnected, reconnectTimeout := true,
    subs := [("chan", c8sub)], serverSubs := [("srv", c5sub)] }

def c8state2 : CState := { state := .connecting, transportPresent := true }

def c3state : CState := { state := .connecting }

/-- Recognize a fired command rejecter in a trace. -/
def isErrb : Ev → Bool
  | Ev.errback _ _ => true
  | _ => false

def c1state : CState :=
  { state := .connected, callbacks := [(1, c6rec), (2, c6rec)],
    transportPresent := true, transportClosed := false }

def c2items : List (Nat × List HAct) :=
  [(1, [HAct.emitA 10, HAct.nextA]), (2, [HAct.nextA]),
   (3, [HAct.emitA 11, HAct.emitA 12, HAct.nextA])]

/-- The external happenings that can settle a registered gated-call waiter:
the client reaches CONNECTED (`_connectResponse` resolves the waiters and
each waiting caller's then-continuation issues its command), the client is
closed (`_close` rejects the waiters with the closed state), or a waiter's
timeout timer fires. -/
inductive COp where
  | opConnected
  | opClose
  | opTimerFire (id : Nat)
deriving DecidableEq, Repr

/-- Apply one happening. For opConnected, the then-continuations of the
newly resolved waiters run right after the resolution (they issue the gated
commands); opClose is the user-facing `close()`. -/
def applyOp (s : CState) : COp → CState × List Ev
  | COp.opConnected =>
    let r := resolvePromisesF s
    let trC := r.2.filterMap fun e =>
      match e with
      | Ev.promiseResolved id => some (Ev.cmdIssued id)
      | _ => none
    (r.1, r.2 ++ trC)
  | COp.opClose => closeF 8 s .client true false
  | COp.opTimerFire id => promiseTimerFire s id

def runOps (s : CState) : List COp → CState × List Ev
  | [] => (s, [])
  | op :: ops =>
    let r1 := applyOp s op
    let r2 := runOps r1.1 ops
    (r2.1, r1.2 ++ r2.2)

/-- The trace events that concern one waiter: its settlement and the
issuance of its gated command. -/
def isWEv (w : Nat) (e : Ev) : Bool :=
  match e with
  | Ev.promiseResolved id => decide (id = w)
  | Ev.promiseRejected id _ => decide (id = w)
  | Ev.cmdIssued id => decide (id = w)
  | _ => false

/-- What a settle-all pass (resolve on CONNECTED / reject on close) emits
for one waiter: one rejection if it is still pending, nothing otherwise. -/
def settleOutcome (w : Nat) (l : List (Nat × PromiseRec)) (v : RejectVal) : List Ev :=
  match aget w l with
  | some rec2 => if rec2.settled = none then [Ev.promiseRejected w v] else []
  | none => []

/-- The waiter-visible outcome dictated by the first relevant happening:
reaching CONNECTED resolves it and then its command is issued; a close
first rejects it with the closed state; its timer firing first rejects it
with the timeout error. -/
def firstOutcomeFor (w : Nat) : List COp → List Ev
  | [] => []
  | COp.opConnected :: _ => [Ev.promiseResolved w, Ev.cmdIssued w]
  | COp.opClose :: _ => [Ev.promiseRejected w RejectVal.stateClosed]
  | COp.opTimerFire id :: ops =>
    if id = w then [Ev.promiseRejected w (RejectVal.errVal methodTimeoutError)]
    else firstOutcomeFor w ops

/-- The waiter w is registered and pending with its timer armed. -/
def LiveAt (w : Nat) (s : CState) : Prop :=
  (∃ d, aget w s.promises = some { timeoutDelay := some d, settled := none }) ∧
  (s.promises.map Prod.fst).Nodup

/-- The waiter w is gone from the table or already settled. -/
def DoneAt (w : Nat) (s : CState) : Prop :=
  (aget w s.promises = none ∨
    ∃ rec2, aget w s.promises = some rec2 ∧ rec2.settled ≠ none) ∧
  (s.promises.map Prod.fst).Nodup

def c4state : CState := { state := .connecting }

/-! ## General lemmas -/

/-- The `for..in` body of `_handleWriteError` never runs its rejection branch:
the loop variable is an index string whose id property is undefined. -/
theorem handleWriteError_eq (s : CState) (cmds : List Cmd) :
    handleWriteError s cmds = (s, []) := by
  unfold handleWriteError
  generalize forInKeys cmds = l
  induction l with
  | nil => rfl
  | cons k rest ih =>
    simp only [List.foldl_cons, idPropOfString]
    exact ih

theorem transportSendCommands_fst (s : CState) (cmds : List Cmd) :
    (transportSendCommands s cmds).1 = s := by
  unfold transportSendCommands
  split
  · rfl
  · split
    · simp [handleWriteError_eq]
    · rfl

theorem keeps_rfl (a : CState) : Keeps a a := ⟨rfl, rfl, rfl⟩

theorem keeps_trans {a b c : CState} (h1 : Keeps a b) (h2 : Keeps b c) : Keeps a c :=
  ⟨h2.1.trans h1.1, h2.2.1.trans h1.2.1, h2.2.2.trans h1.2.2⟩

theorem keeps_transportSendCommands (s : CState) (cmds : List Cmd) :
    Keeps s (transportSendCommands s cmds).1 := by
  rw [transportSendCommands_fst]; exact keeps_rfl s

theorem keeps_addCommand (s : CState) (cmd : Cmd) : Keeps s (addCommand s cmd).1 := by
  unfold addCommand
  split
  · exact ⟨rfl, rfl, rfl⟩
  · exact keeps_transportSendCommands s [cmd]

theorem keeps_callF (s : CState) (cmd : Cmd) : Keeps s (callF s cmd).1 := by
  unfold callF registerCall
  exact keeps_addCommand _ _

theorem keeps_sendSubscribe (s : CState) (channel : String) (b : Bool) :
    Keeps s (sendSubscribe s channel b).1 := by
  unfold sendSubscribe
  split
  · exact keeps_rfl s
  · exact keeps_callF _ _

theorem keeps_subscribeF (s : CState) (channel : String) :
    Keeps s (subscribeF s channel).1 := by
  unfold subscribeF
  split
  · split
    · exact keeps_rfl s
    · split
      · split
        · exact keeps_sendSubscribe _ _ _
        · exact keeps_rfl s
      · exact keeps_sendSubscribe _ _ _
  · exact keeps_rfl s

theorem keeps_foldl {α : Type} (f : (CState × List Ev) → α → (CState × List Ev))
    (hf : ∀ acc x, Keeps acc.1 (f acc x).1) :
    ∀ (l : List α) (acc : CState × List Ev), Keeps acc.1 (l.foldl f acc).1 := by
  intro l
  induction l with
  | nil => intro acc; exact keeps_rfl _
  | cons x xs ih => intro acc; exact keeps_trans (hf acc x) (ih (f acc x))

theorem keeps_resubscribeAll (s : CState) : Keeps s (resubscribeAll s).1 := by
  unfold resubscribeAll
  refine keeps_foldl _ (fun acc p => ?_) s.subs (s, [])
  dsimp only
  split
  · split
    · exact keeps_subscribeF _ _
    · exact keeps_rfl _
  · exact keeps_rfl _

theorem keeps_handlePublication (s : CState) (channel : String) (pub : Pub) :
    Keeps s (handlePublication s channel pub).1 := by
  unfold handlePublication
  split
  · split
    · split
      · exact ⟨rfl, rfl, rfl⟩
      · exact keeps_rfl s
    · exact keeps_rfl s
  · exact keeps_rfl s

theorem keeps_processServerSubs (s : CState) (subs : List (String × ServerSubResult)) :
    Keeps s (processServerSubs s subs).1 := by
  unfold processServerSubs
  dsimp only
  refine keeps_foldl _ (fun acc p => ?_) subs (s, [])
  dsimp only
  refine keeps_trans (b := (if p.2.recovered then
      p.2.publications.foldl (fun acc2 pub =>
        ((handlePublication acc2.1 p.1 pub).1, acc2.2 ++ (handlePublication acc2.1 p.1 pub).2))
        (acc.1, ([] : List Ev)) else (acc.1, ([] : List Ev))).1) ?_ ⟨rfl, rfl, rfl⟩
  split
  · exact keeps_foldl
      (fun acc2 pub => ((handlePublication acc2.1 p.1 pub).1, acc2.2 ++ (handlePublication acc2.1 p.1 pub).2))
      (fun acc2 pub => keeps_handlePublication acc2.1 p.1 pub) _ _
  · exact keeps_rfl _

theorem keeps_flushF (s : CState) : Keeps s (flushF s).1 := by
  unfold flushF
  exact keeps_transportSendCommands _ _

theorem keeps_stopBatching (s : CState) : Keeps s (stopBatching s).1 := by
  unfold stopBatching
  exact keeps_flushF _

theorem keeps_resolvePromisesF (s : CState) : Keeps s (resolvePromisesF s).1 :=
  ⟨rfl, rfl, rfl⟩

theorem setState_fst_state (s : CState) (st : ClientState) :
    (setState s st).1.state = st := by
  unfold setState
  split
  · rfl
  · next h => simpa using h

theorem setState_misc (s : CState) (st : ClientState) :
    (setState s st).1.config = s.config ∧
    (setState s st).1.serverPingTimeout = s.serverPingTimeout := by
  unfold setState
  split <;> exact ⟨rfl, rfl⟩

theorem startClientPing_spt (s : CState) :
    (startClientPing s).1.serverPingTimeout = s.serverPingTimeout := by
  unfold startClientPing
  split
  · rfl
  · split <;> rfl

theorem waitServerPing_misc (s : CState) :
    (waitServerPing s).1.serverPing = s.serverPing ∧
    (waitServerPing s).1.sendPong = s.sendPong ∧
    (waitServerPing s).1.state = s.state := by
  unfold waitServerPing
  split
  · exact ⟨rfl, rfl, rfl⟩
  · split <;> exact ⟨rfl, rfl, rfl⟩

theorem waitServerPing_arms (s : CState) (h0 : s.config.maxServerPingDelay ≠ 0)
    (hc : s.state = .connected) :
    (waitServerPing s).1.serverPingTimeout =
      some (s.serverPing + s.config.maxServerPingDelay) := by
  unfold waitServerPing
  rw [if_neg h0, if_neg (by simp [hc])]

/-- After the main phase of `_connectResponse` the client is CONNECTED and the
configuration and the server-ping watchdog timer are untouched. -/
theorem connectResponseMain_props (s0 : CState) (result : ConnectResult) :
    (connectResponseMain s0 result).1.state = .connected ∧
    (connectResponseMain s0 result).1.config = s0.config ∧
    (connectResponseMain s0 result).1.serverPingTimeout = s0.serverPingTimeout := by
  unfold connectResponseMain
  dsimp only
  have h2 := setState_fst_state { s0 with client := some result.client } .connected
  have h2m := setState_misc { s0 with client := some result.client } .connected
  generalize hA : (setState { s0 with client := some result.client } ClientState.connected).1 = a at h2 h2m
  -- state after the refresh-timeout, session and batching record updates
  set s6 : CState :=
    { (if result.expires
        then { ({ a with refreshTimeout := none } : CState) with
                 refreshTimeout := some (ttlMilliseconds result.ttl) }
        else { a with refreshTimeout := none }) with
        session := result.session, node := result.node, isBatching := true } with hs6
  have hs6state : s6.state = .connected := by
    rw [hs6]; split <;> simpa using h2
  have hs6cfg : s6.config = s0.config := by
    rw [hs6]
    have := h2m.1
    split <;> simpa using this
  have hs6spt : s6.serverPingTimeout = s0.serverPingTimeout := by
    rw [hs6]
    have := h2m.2
    split <;> simpa using this
  have k1 := keeps_resubscribeAll s6
  have k2 := keeps_stopBatching (resubscribeAll s6).1
  have k3 := keeps_resolvePromisesF (stopBatching (resubscribeAll s6).1).1
  have k4 : Keeps s6 (stopBatching (resubscribeAll s6).1).1 := keeps_trans k1 k2
  have k5 : Keeps s6 (resolvePromisesF (stopBatching (resubscribeAll s6).1).1).1 :=
    keeps_trans k4 k3
  -- the final match on result.subs
  cases hsubs : result.subs with
  | none =>
    simp only [hsubs]
    refine ⟨?_, ?_, ?_⟩
    · rw [k5.1, hs6state]
    · rw [k5.2.1, hs6cfg]
    · rw [k5.2.2, hs6spt]
  | some subs =>
    simp only [hsubs]
    have k6 := keeps_processServerSubs (resolvePromisesF (stopBatching (resubscribeAll s6).1).1).1 subs
    have k7 : Keeps s6 _ := keeps_trans k5 k6
    refine ⟨?_, ?_, ?_⟩
    · rw [k7.1, hs6state]
    · rw [k7.2.1, hs6cfg]
    · rw [k7.2.2, hs6spt]

/-! ## Claim C10 -/

/-- C10: with maxServerPingDelay configured to 0 the server-ping watchdog is
never armed: `_waitServerPing` returns immediately, so neither a connect
reply carrying a positive ping nor any incoming frame arms the watchdog, and
the code-11 no-ping disconnect (which only the armed watchdog fires) cannot
happen in server-ping mode: the keepalive check is silently disabled. -/
theorem c10_watchdog_disabled :
    (∀ s : CState, s.config.maxServerPingDelay = 0 → waitServerPing s = (s, [])) ∧
    (∀ (s : CState) (result : ConnectResult), s.config.maxServerPingDelay = 0 →
        s.serverPingTimeout = none → (connectResponse s result).1.serverPingTimeout = none) ∧
    (∀ (s : CState) (items : List (Nat × List HAct)), s.config.maxServerPingDelay = 0 →
        s.serverPingTimeout = none →
        (dataReceived s items).1.serverPingTimeout = none) := by
  have hwait : ∀ s : CState, s.config.maxServerPingDelay = 0 → waitServerPing s = (s, []) := by
    intro s h
    unfold waitServerPing
    rw [if_pos h]
  refine ⟨hwait, ?_, ?_⟩
  · intro s result h0 hn
    unfold connectResponse
    dsimp only
    split
    · exact hn
    · split
      · rw [hwait _ (by
          show ({ (connectResponseMain _ result).1 with
                    serverPing := result.ping * 1000, sendPong := result.pong } : CState).config.maxServerPingDelay = 0
          have := (connectResponseMain_props
            { s with transportWasOpen := true, reconnectAttempts := 0, refreshRequired := false }
            result).2.1
          simp only [this]
          exact h0)]
        have := (connectResponseMain_props
          { s with transportWasOpen := true, reconnectAttempts := 0, refreshRequired := false }
          result).2.2
        simp only [this]
        exact hn
      · rw [startClientPing_spt]
        have := (connectResponseMain_props
          { s with transportWasOpen := true, reconnectAttempts := 0, refreshRequired := false }
          result).2.2
        simp only [this]
        exact hn
  · intro s items h0 hn
    unfold dataReceived
    dsimp only
    split
    · rw [hwait s h0]; exact hn
    · unfold restartPing
      rw [startClientPing_spt]
      rfl

theorem c10_witness :
    c10s.config.maxServerPingDelay = 0 ∧ c10s.serverPingTimeout = none ∧
    (connectResponse c10s c10r).1.serverPingTimeout = none :=
  ⟨by decide, by decide, c10_watchdog_disabled.2.1 c10s c10r (by decide) (by decide)⟩

/-! ## Claim C7 -/

theorem clearConnectedState_state (s : CState) (r a b : Bool) :
    (clearConnectedState s r a b).1.state = s.state := by
  unfold clearConnectedState stopPing
  dsimp only
  split <;> split <;> split <;> rfl

theorem closeTransport_state (s : CState) :
    (closeTransport s).1.state = s.state := by
  unfold closeTransport
  split <;> rfl

/-- Disconnecting with reconnect from CONNECTED (a real code, not the
initial-handshake marker) lands in CONNECTING and emits the disconnect
event. -/
theorem disconnectF_reconnect_connected (f : Nat) (s : CState) (code : Int)
    (reason : String) (a b : Bool) (hc : s.state = .connected) (hcode : code ≠ -1) :
    (disconnectF f s code reason true a b).1.state = .connecting ∧
    Ev.disconnectEv code reason true ∈ (disconnectF f s code reason true a b).2 := by
  unfold disconnectF
  rw [if_neg (by simp [hc]), if_neg hcode]
  dsimp only
  simp only [eq_self_iff_true, if_true]
  rw [if_pos (Or.inl (by rw [clearConnectedState_state]; exact hc))]
  constructor
  · rw [closeTransport_state]
    exact setState_fst_state _ _
  · simp [List.mem_append]

/-- C7: a connect reply with ping greater than 0 puts the client into
server-ping keepalive mode: serverPing is recorded in milliseconds, the pong
flag is taken from the reply, and the watchdog is armed to
ping*1000 + maxServerPingDelay ms (35000 for ping=25 under the default
configuration, checked by the witness); every incoming frame re-arms the
watchdog; and when the watchdog fires while CONNECTED the client disconnects
with code 11, reason no ping, and returns to CONNECTING to reconnect. -/
theorem c7_server_ping_watchdog :
    (∀ (s : CState) (result : ConnectResult),
       s.state ≠ .connected → s.config.maxServerPingDelay ≠ 0 → 0 < result.ping →
       (connectResponse s result).1.serverPing = result.ping * 1000 ∧
       (connectResponse s result).1.sendPong = result.pong ∧
       (connectResponse s result).1.serverPingTimeout =
         some (result.ping * 1000 + s.config.maxServerPingDelay)) ∧
    (∀ (s : CState) (items : List (Nat × List HAct)),
       s.state = .connected → s.config.maxServerPingDelay ≠ 0 → 0 < s.serverPing →
       (dataReceived s items).1.serverPingTimeout =
         some (s.serverPing + s.config.maxServerPingDelay)) ∧
    (∀ s : CState, s.state = .connected →
       (serverPingFire 8 s).1.state = .connecting ∧
       Ev.disconnectEv 11 "no ping" true ∈ (serverPingFire 8 s).2) := by
  refine ⟨?_, ?_, ?_⟩
  · intro s result hns h0 hp
    unfold connectResponse
    dsimp only
    split
    · next h => exact absurd h hns
    · have hm := connectResponseMain_props
        { s with transportWasOpen := true, reconnectAttempts := 0, refreshRequired := false }
        result
      set sa : CState :=
        { (connectResponseMain
            { s with transportWasOpen := true, reconnectAttempts := 0, refreshRequired := false }
            result).1 with
          serverPing := result.ping * 1000, sendPong := result.pong } with hsa
      have hsaState : sa.state = .connected := by rw [hsa]; exact hm.1
      have hsaCfg : sa.config.maxServerPingDelay = s.config.maxServerPingDelay := by
        rw [hsa]; simp [hm.2.1]
      have hmisc := waitServerPing_misc sa
      refine ⟨?_, ?_, ?_⟩
      · rw [hmisc.1]
      · rw [hmisc.2.1]
      · rw [waitServerPing_arms sa (by rw [hsaCfg]; exact h0) hsaState, hsaCfg]
  · intro s items hc h0 hp
    unfold dataReceived
    dsimp only
    rw [if_pos hp]
    exact waitServerPing_arms s h0 hc
  · intro s hc
    unfold serverPingFire
    rw [if_neg (by simp [hc])]
    exact disconnectF_reconnect_connected 8 _ 11 "no ping" false false hc (by decide)

theorem c7_witness :
    c7s.state ≠ ClientState.connected ∧ c7s.config.maxServerPingDelay ≠ 0 ∧
    0 < c7r.ping ∧
    (connectResponse c7s c7r).1.serverPing = 25000 ∧
    (connectResponse c7s c7r).1.serverPingTimeout = some 35000 := by
  have h := c7_server_ping_watchdog.1 c7s c7r (by decide) (by decide) (by decide)
  exact ⟨by decide, by decide, by decide, h.1, h.2.2⟩

/-! ## Claim C6 -/

/-- C6 (code bug): the claim says a synchronous transport.send throw removes
each affected in-flight record, cancels its timer and fires its rejecter
with the transport write error. The code cannot do any of that:
`_handleWriteError` iterates the command ARRAY with for..in, so the loop
variable is an index string, its id property is undefined, and the
undefined key is never in the callback table: `_handleWriteError` is a
no-op on any input. Concretely, a registered call with id 1 whose frame
write throws keeps its in-flight record and no rejecter fires; the send
merely reports failure. -/
theorem c6_write_error_noop :
    (∀ (s : CState) (cmds : List Cmd), handleWriteError s cmds = (s, [])) ∧
    transportSendCommands c6state [c6cmd] = (c6state, [], false) ∧
    aget 1 (transportSendCommands c6state [c6cmd]).1.callbacks = some c6rec := by
  refine ⟨handleWriteError_eq, by decide, by decide⟩

/-! ## Claim C5 -/

/-- C5 (code bug): the claim (and the closeReasons comment block of the
source, which documents SERVER as keeping all subscription position state)
says only CLIENT and UNRECOVERABLE_POSITION closes clear the
server-subscription registry. But the non-reconnect branch of `_disconnect`
runs `this._close(closeReasons.SERVER, true, true)`, so a server-initiated
terminal disconnect (here a disconnect push with code 3500 while CONNECTED)
closes with reason SERVER and clears the registry. -/
theorem c5_server_close_clears_positions :
    (handleDisconnect 8 c5state 3500 "terminal shutdown").1.state = ClientState.closed ∧
    Ev.closeEv CloseReason.server ∈ (handleDisconnect 8 c5state 3500 "terminal shutdown").2 ∧
    (handleDisconnect 8 c5state 3500 "terminal shutdown").1.serverSubs = [] := by
  refine ⟨by decide, by decide, by decide⟩

/-! ## Claim C9 -/

/-- C9 counterexample: delivering a publication with offset 11 on the
server-subscribed channel emits the publication event FIRST and assigns the
stored offset afterwards, so the claimed update-before-emit order is false
at this input. -/
theorem c9_counterexample :
    (handlePublication c9state "chan" c9pub).2 =
      [Ev.publicationEv "chan" 7 (some 11), Ev.posUpdate "chan" 11] ∧
    ¬ updateBeforeEmit (handlePublication c9state "chan" c9pub).2 "chan" := by
  refine ⟨by decide, by decide⟩

/-- C9 amended: for a publication on a channel with a server-side
subscription and no client-side Subscription object, the publication event
is emitted first and then the stored offset is assigned (only when the
publication carries an offset); the stored epoch is never updated; join and
leave handling updates no stored state and only emits the corresponding
event. Publications on channels with a client-side Subscription are
delegated to the Subscription object (subscription.js, outside src/). -/
theorem c9_publication_emits_then_updates :
    ∀ (s : CState) (channel : String) (pub : Pub),
      aget channel s.subs = none → isServerSub s channel = true →
      ((handlePublication s channel pub).2 =
         Ev.publicationEv channel pub.dataTag pub.offset ::
           (match pub.offset with
            | some off => [Ev.posUpdate channel off]
            | none => [])) ∧
      ((handlePublication s channel pub).1.serverSubs.map (fun p => (p.1, p.2.epoch)) =
         s.serverSubs.map (fun p => (p.1, p.2.epoch))) ∧
      handleJoin s channel = (s, [Ev.joinEv channel]) ∧
      handleLeave s channel = (s, [Ev.leaveEv channel]) := by
  intro s channel pub hnone hsrv
  have hmap : ∀ (l : List (String × ServerSub)) (off : Nat),
      (l.map (fun p => if p.1 = channel then (p.1, { p.2 with offset := some off }) else p)).map
          (fun p => (p.1, p.2.epoch)) =
        l.map (fun p => (p.1, p.2.epoch)) := by
    intro l off
    induction l with
    | nil => rfl
    | cons q rest ih =>
      by_cases hq : q.1 = channel <;> simp [hq, ih]
  refine ⟨?_, ?_, ?_, ?_⟩
  · unfold handlePublication
    rw [hnone]
    dsimp only
    rw [if_pos hsrv]
    cases hoff : pub.offset <;> simp [hoff]
  · unfold handlePublication
    rw [hnone]
    dsimp only
    rw [if_pos hsrv]
    cases hoff : pub.offset with
    | none => rfl
    | some off => exact hmap s.serverSubs off
  · unfold handleJoin
    rw [hnone]
    dsimp only
    rw [if_pos hsrv]
  · unfold handleLeave
    rw [hnone]
    dsimp only
    rw [if_pos hsrv]

theorem c9_witness :
    aget "chan" c9state.subs = none ∧ isServerSub c9state "chan" = true ∧
    (handlePublication c9state "chan" c9pub).1.serverSubs.map (fun p => (p.1, p.2.epoch)) =
      c9state.serverSubs.map (fun p => (p.1, p.2.epoch)) ∧
    handleJoin c9state "chan" = (c9state, [Ev.joinEv "chan"]) := by
  have h := c9_publication_emits_then_updates c9state "chan" c9pub (by decide) (by decide)
  exact ⟨by decide, by decide, h.2.1, h.2.2.1⟩

/-! ## Claim C8 -/

theorem clearSubsNew_id (b : Bool) (subs : List (String × Sub))
    (h : ∀ p ∈ subs, p.2.st ≠ SubSt.subscribed) : clearSubsNew b subs = subs := by
  unfold clearSubsNew
  induction subs with
  | nil => rfl
  | cons q rest ih =>
    have hq := h q (by simp)
    simp only [List.map_cons, if_neg hq]
    rw [ih (fun p hp => h p (by simp [hp]))]

theorem clearSubsTrace_nil (subs : List (String × Sub))
    (h : ∀ p ∈ subs, p.2.st ≠ SubSt.subscribed) : clearSubsTrace subs = [] := by
  unfold clearSubsTrace
  induction subs with
  | nil => rfl
  | cons q rest ih =>
    have hq := h q (by simp)
    simp only [List.filterMap_cons, if_neg hq]
    exact ih (fun p hp => h p (by simp [hp]))

/-- C8: session transitions are idempotent. connect() while CONNECTING or
CONNECTED returns immediately: no state change, no transport, no event.
disconnect() while DISCONNECTED (in a reachable disconnected state: no
client id, no armed keepalive or refresh timers, empty callback table, no
subscription left SUBSCRIBED) changes nothing and emits nothing except that
it cancels any pending reconnect timer. -/
theorem c8_idempotent_transitions :
    (∀ s : CState, s.state = .connected ∨ s.state = .connecting → connectF s = (s, [])) ∧
    (∀ s : CState, s.state = .disconnected → s.client = none →
        s.refreshTimeout = none → s.pingTimeout = none → s.pongTimeout = none →
        s.serverPingTimeout = none → s.callbacks = [] →
        (∀ p ∈ s.subs, p.2.st ≠ SubSt.subscribed) →
        disconnectUser 8 s = ({ s with reconnectTimeout := false }, [])) := by
  constructor
  · intro s h
    unfold connectF
    rcases h with h | h
    · rw [if_pos h]
    · rw [if_neg (by simp [h]), if_pos h]
  · intro s h hc hr hpi hpo hsp hcb hsubs
    unfold disconnectUser disconnectF
    rw [if_pos (Or.inl h)]
    have hclear : clearConnectedState s false false false =
        ({ s with reconnectTimeout := false }, []) := by
      have h1 := clearSubsNew_id false s.subs hsubs
      have h2 := clearSubsTrace_nil s.subs hsubs
      cases s
      simp_all [clearConnectedState, stopPing, errbTrace]
    simpa using hclear

theorem c8_witness :
    (c8state2.state = ClientState.connected ∨ c8state2.state = ClientState.connecting) ∧
    connectF c8state2 = (c8state2, []) ∧
    c8state.state = ClientState.disconnected ∧ c8state.callbacks = [] ∧
    disconnectUser 8 c8state = ({ c8state with reconnectTimeout := false }, []) := by
  refine ⟨Or.inr (by decide), c8_idempotent_transitions.1 c8state2 (Or.inr (by decide)),
    by decide, by decide,
    c8_idempotent_transitions.2 c8state (by decide) (by decide) (by decide) (by decide)
      (by decide) (by decide) (by decide) (by decide)⟩

/-! ## Claim C3 -/

theorem clearConnectedState_rr (s : CState) (r a b : Bool) :
    (clearConnectedState s r a b).1.refreshRequired = s.refreshRequired := by
  unfold clearConnectedState stopPing
  dsimp only
  split <;> split <;> split <;> rfl

theorem closeTransport_rr (s : CState) :
    (closeTransport s).1.refreshRequired = s.refreshRequired := by
  unfold closeTransport
  split <;> rfl

theorem setState_rr (s : CState) (st : ClientState) :
    (setState s st).1.refreshRequired = s.refreshRequired := by
  unfold setState
  split <;> rfl

/-- Disconnecting with reconnect from CONNECTING stays in CONNECTING and
keeps the refresh-required flag. -/
theorem disconnectF_reconnect_connecting (f : Nat) (s : CState) (code : Int)
    (reason : String) (a b : Bool) (hc : s.state = .connecting) :
    (disconnectF f s code reason true a b).1.state = .connecting ∧
    (disconnectF f s code reason true a b).1.refreshRequired = s.refreshRequired := by
  unfold disconnectF
  rw [if_neg (by simp [hc])]
  by_cases hm1 : code = -1
  · rw [if_pos hm1]
    dsimp only
    constructor
    · rw [closeTransport_state, clearConnectedState_state]
      exact hc
    · rw [closeTransport_rr, clearConnectedState_rr]
  · rw [if_neg hm1]
    dsimp only
    simp only [eq_self_iff_true, if_true]
    constructor
    · rw [closeTransport_state]
      split
      · exact setState_fst_state _ _
      · exact setState_fst_state _ _
    · rw [closeTransport_rr]
      split
      · rw [setState_rr, clearConnectedState_rr]
      · rw [setState_rr, clearConnectedState_rr]

theorem closeF_state (f : Nat) (s : CState) (reason : CloseReason) (a b : Bool) :
    (closeF f s reason a b).1.state = ClientState.closed := by
  unfold closeF rejectPromisesF
  dsimp only
  exact setState_fst_state _ _

theorem closeF_mem (f : Nat) (s : CState) (reason : CloseReason) (a b : Bool) :
    Ev.closeEv reason ∈ (closeF f s reason a b).2 := by
  unfold closeF
  dsimp only
  simp [List.mem_append]

/-- C3: routing of connect-reply errors while CONNECTING. Code 112
fatal-closes with UNRECOVERABLE_POSITION. Codes below 100, temporary errors
and code 109 keep the client in CONNECTING (the reconnect loop; code 109
additionally sets the refresh-required flag). Every other permanent code
closes with CONNECT_FAILED. The reconnect backoff itself is scheduled by the
transport onClose callback once the disconnect closes the transport. -/
theorem c3_connect_error_routing :
    ∀ (s : CState) (err : ErrObj), s.state = .connecting →
      (err.code = 112 →
        (connectError 8 s err).1.state = ClientState.closed ∧
        Ev.closeEv CloseReason.unrecoverablePosition ∈ (connectError 8 s err).2) ∧
      (err.code ≠ 112 → (err.code < 100 ∨ err.temporary = true ∨ err.code = 109) →
        (connectError 8 s err).1.state = ClientState.connecting ∧
        (err.code = 109 → (connectError 8 s err).1.refreshRequired = true)) ∧
      (err.code ≠ 112 → ¬(err.code < 100 ∨ err.temporary = true ∨ err.code = 109) →
        (connectError 8 s err).1.state = ClientState.closed ∧
        Ev.closeEv CloseReason.connectFailed ∈ (connectError 8 s err).2) := by
  intro s err hs
  refine ⟨?_, ?_, ?_⟩
  · intro h112
    unfold connectError
    rw [if_pos h112]
    exact ⟨closeF_state _ _ _ _ _, closeF_mem _ _ _ _ _⟩
  · intro h112 hcond
    unfold connectError
    rw [if_neg h112]
    dsimp only
    rw [if_pos hcond]
    by_cases h109 : err.code = 109
    · rw [if_pos h109]
      have hd := disconnectF_reconnect_connecting 8 { s with refreshRequired := true }
        (if err.code < 100 ∧ s.emulation = true ∧ s.transportWasOpen = false ∧
            s.currentTransportIndex < s.transportsLen then -1 else 6)
        "connect error" false false (by simpa using hs)
      exact ⟨hd.1, fun _ => hd.2⟩
    · rw [if_neg h109]
      have hd := disconnectF_reconnect_connecting 8 s
        (if err.code < 100 ∧ s.emulation = true ∧ s.transportWasOpen = false ∧
            s.currentTransportIndex < s.transportsLen then -1 else 6)
        "connect error" false false hs
      exact ⟨hd.1, fun hx => absurd hx h109⟩
  · intro h112 hcond
    unfold connectError
    rw [if_neg h112]
    dsimp only
    rw [if_neg hcond]
    have h109 : err.code ≠ 109 := fun hx => hcond (Or.inr (Or.inr hx))
    rw [if_neg h109]
    exact ⟨closeF_state _ _ _ _ _, closeF_mem _ _ _ _ _⟩

theorem c3_witness :
    c3state.state = ClientState.connecting ∧
    (connectError 8 c3state { code := 112, message := "unrecoverable position" }).1.state =
      ClientState.closed ∧
    (connectError 8 c3state { code := 109, message := "token expired" }).1.state =
      ClientState.connecting ∧
    (connectError 8 c3state { code := 109, message := "token expired" }).1.refreshRequired =
      true ∧
    (connectError 8 c3state { code := 101, message := "permanent" }).1.state =
      ClientState.closed ∧
    Ev.closeEv CloseReason.connectFailed ∈
      (connectError 8 c3state { code := 101, message := "permanent" }).2 := by
  have h112 := (c3_connect_error_routing c3state
    { code := 112, message := "unrecoverable position" } (by decide)).1 (by decide)
  have h109 := (c3_connect_error_routing c3state
    { code := 109, message := "token expired" } (by decide)).2.1 (by decide)
    (Or.inr (Or.inr (by decide)))
  have h101 := (c3_connect_error_routing c3state
    { code := 101, message := "permanent" } (by decide)).2.2 (by decide) (by decide)
  exact ⟨by decide, h112.1, h109.1, h109.2 (by decide), h101.1, h101.2⟩

/-! ## Claim C1 -/

theorem setState_callbacks (s : CState) (st : ClientState) :
    (setState s st).1.callbacks = s.callbacks := by
  unfold setState
  split <;> rfl

theorem closeTransport_callbacks (s : CState) :
    (closeTransport s).1.callbacks = s.callbacks := by
  unfold closeTransport
  split <;> rfl

theorem clearConnectedState_callbacks (s : CState) (r a b : Bool) :
    (clearConnectedState s r a b).1.callbacks = [] := by
  unfold clearConnectedState stopPing
  dsimp only
  split <;> split <;> split <;> rfl

theorem filter_isErrb_errbTrace (cbs : List (Nat × CallbackRec)) :
    (errbTrace cbs).filter isErrb = errbTrace cbs := by
  unfold errbTrace
  induction cbs with
  | nil => rfl
  | cons q rest ih =>
    by_cases hq : q.2.hasErrback = true
    · simp only [List.filterMap_cons, if_pos hq]
      rw [List.filter_cons_of_pos (by rfl)]
      rw [ih]
    · simp only [List.filterMap_cons, if_neg hq]
      exact ih

theorem filter_isErrb_clearSubsTrace (subs : List (String × Sub)) :
    (clearSubsTrace subs).filter isErrb = [] := by
  unfold clearSubsTrace
  induction subs with
  | nil => rfl
  | cons q rest ih =>
    by_cases hq : q.2.st = SubSt.subscribed
    · simp only [List.filterMap_cons, if_pos hq]
      rw [List.filter_cons_of_neg (by simp [isErrb])]
      exact ih
    · simp only [List.filterMap_cons, if_neg hq]
      exact ih

theorem filter_isErrb_unsubMap (l : List (String × ServerSub)) :
    ((l.map fun p => Ev.unsubscribeEv p.1).filter isErrb) = [] := by
  induction l with
  | nil => rfl
  | cons q rest ih =>
    simp only [List.map_cons]
    rw [List.filter_cons_of_neg (by simp [isErrb])]
    exact ih

theorem filter_isErrb_rejectPromises (s : CState) (v : RejectVal) :
    ((rejectPromisesF s v).2.filter isErrb) = [] := by
  unfold rejectPromisesF
  dsimp only
  induction s.promises with
  | nil => rfl
  | cons q rest ih =>
    by_cases hq : q.2.settled = none
    · simp only [List.filterMap_cons, if_pos hq]
      rw [List.filter_cons_of_neg (by simp [isErrb])]
      exact ih
    · simp only [List.filterMap_cons, if_neg hq]
      exact ih

theorem filter_isErrb_setState (s : CState) (st : ClientState) :
    ((setState s st).2.filter isErrb) = [] := by
  unfold setState
  split <;> rfl

theorem filter_isErrb_closeTransport (s : CState) :
    ((closeTransport s).2.filter isErrb) = [] := by
  unfold closeTransport
  split <;> rfl

/-- The rejecter firings of `_clearConnectedState` are exactly the errbacks
of the callback table at entry; nothing else in its trace is a rejecter
firing. -/
theorem clearConnectedState_filter (s : CState) (r a b : Bool) :
    ((clearConnectedState s r a b).2.filter isErrb) = errbTrace s.callbacks := by
  unfold clearConnectedState stopPing
  dsimp only
  split
  · rw [List.filter_append, List.filter_append, filter_isErrb_clearSubsTrace,
      filter_isErrb_errbTrace]
    split
    · rw [filter_isErrb_unsubMap]
      simp
    · simp
  · rw [List.filter_append, List.filter_append, filter_isErrb_clearSubsTrace,
      filter_isErrb_errbTrace]
    split
    · rw [filter_isErrb_unsubMap]
      simp
    · simp

/-- With an empty callback table, no branch of `_disconnect` (including the
nested `_close`) fires a rejecter. -/
theorem disconnectF_filter_empty :
    ∀ (f : Nat) (s : CState) (code : Int) (reason : String) (r a b : Bool),
      s.callbacks = [] →
      ((disconnectF f s code reason r a b).2.filter isErrb) = [] := by
  intro f
  induction f with
  | zero =>
    intro s code reason r a b h
    unfold disconnectF
    dsimp only
    split
    · split
      · rw [clearConnectedState_filter, h]
        rfl
      · rfl
    · split
      · rw [List.filter_append, clearConnectedState_filter, h, filter_isErrb_closeTransport]
        rfl
      · split
        · rw [List.filter_append, List.filter_append, List.filter_append,
            clearConnectedState_filter, h, filter_isErrb_setState, filter_isErrb_closeTransport]
          split
          · rfl
          · rfl
        · rw [List.filter_append, List.filter_append, List.filter_append,
            clearConnectedState_filter, h, filter_isErrb_setState, filter_isErrb_closeTransport]
          split
          · rfl
          · rfl
  | succ n ih =>
    intro s code reason r a b h
    unfold disconnectF
    dsimp only
    split
    · split
      · rw [clearConnectedState_filter, h]
        rfl
      · rfl
    · split
      · rw [List.filter_append, clearConnectedState_filter, h, filter_isErrb_closeTransport]
        rfl
      · split
        · rw [List.filter_append, List.filter_append, List.filter_append,
            clearConnectedState_filter, h, filter_isErrb_setState, filter_isErrb_closeTransport]
          split
          · rfl
          · rfl
        · rw [List.filter_append, List.filter_append, List.filter_append,
            clearConnectedState_filter, h, filter_isErrb_setState, filter_isErrb_closeTransport]
          split
          · rw [List.filter_cons_of_neg (by simp [isErrb]),
              List.filter_append, List.filter_append, List.filter_append]
            rw [ih _ 0 "closing" false true true
              (by rw [setState_callbacks, clearConnectedState_callbacks])]
            rw [filter_isErrb_setState, filter_isErrb_rejectPromises]
            rfl
          · rfl

theorem errbTrace_map (cbs : List (Nat × CallbackRec))
    (h : ∀ p ∈ cbs, p.2.hasErrback = true) :
    errbTrace cbs = cbs.map (fun p => Ev.errback p.1 disconnectedError) := by
  unfold errbTrace
  induction cbs with
  | nil => rfl
  | cons q rest ih =>
    simp only [List.filterMap_cons, if_pos (h q (by simp)), List.map_cons]
    rw [ih (fun p hp => h p (by simp [hp]))]

theorem rejectPromisesF_state (s : CState) (v : RejectVal) :
    (rejectPromisesF s v).1.state = s.state := rfl

theorem rejectPromisesF_callbacks (s : CState) (v : RejectVal) :
    (rejectPromisesF s v).1.callbacks = s.callbacks := rfl

/-- With an empty callback table every branch of `_disconnect` leaves the
table empty. -/
theorem disconnectF_callbacks_empty :
    ∀ (f : Nat) (s : CState) (code : Int) (reason : String) (r a b : Bool),
      s.callbacks = [] →
      (disconnectF f s code reason r a b).1.callbacks = [] := by
  intro f
  induction f with
  | zero =>
    intro s code reason r a b h
    unfold disconnectF
    dsimp only
    split
    · split
      · exact clearConnectedState_callbacks s _ _ _
      · exact h
    · split
      · rw [closeTransport_callbacks]
        exact clearConnectedState_callbacks s _ _ _
      · split
        · rw [closeTransport_callbacks]
          split
          · rw [setState_callbacks]
            exact clearConnectedState_callbacks s _ _ _
          · rw [setState_callbacks]
            exact clearConnectedState_callbacks s _ _ _
        · rw [closeTransport_callbacks]
          split
          · rw [setState_callbacks]
            exact clearConnectedState_callbacks s _ _ _
          · rw [setState_callbacks]
            exact clearConnectedState_callbacks s _ _ _
  | succ n ih =>
    intro s code reason r a b h
    unfold disconnectF
    dsimp only
    split
    · split
      · exact clearConnectedState_callbacks s _ _ _
      · exact h
    · split
      · rw [closeTransport_callbacks]
        exact clearConnectedState_callbacks s _ _ _
      · split
        · rw [closeTransport_callbacks]
          split
          · rw [setState_callbacks]
            exact clearConnectedState_callbacks s _ _ _
          · rw [setState_callbacks]
            exact clearConnectedState_callbacks s _ _ _
        · rw [closeTransport_callbacks]
          split
          · rw [rejectPromisesF_callbacks, setState_callbacks]
            exact ih _ 0 "closing" false true true
              (by rw [setState_callbacks, clearConnectedState_callbacks])
          · rw [setState_callbacks]
            exact clearConnectedState_callbacks s _ _ _

/-- C1: every call of `_disconnect` from the CONNECTED state (the only code
path that moves the client out of CONNECTED; `_close` enters it first)
empties the in-flight callback table, and the rejecter firings in its trace
are exactly one firing per registered command, each with the disconnected
error (code 0). With distinct command ids (ids are allocated by a counter)
each rejecter fires exactly once, and for any real disconnect code the
resulting state is no longer CONNECTED. -/
theorem c1_disconnect_rejects_inflight :
    ∀ (f : Nat) (s : CState) (code : Int) (reason : String) (r a b : Bool),
      s.state = ClientState.connected →
      (∀ p ∈ s.callbacks, p.2.hasErrback = true) →
      (s.callbacks.map Prod.fst).Nodup →
      (disconnectF f s code reason r a b).1.callbacks = [] ∧
      ((disconnectF f s code reason r a b).2.filter isErrb) =
        s.callbacks.map (fun p => Ev.errback p.1 disconnectedError) ∧
      (∀ p ∈ s.callbacks,
        ((disconnectF f s code reason r a b).2.count
          (Ev.errback p.1 disconnectedError)) = 1) ∧
      (code ≠ -1 → (disconnectF f s code reason r a b).1.state ≠ ClientState.connected) := by
  intro f s code reason r a b hc hEb hNd
  have hne : ¬ (s.state = ClientState.disconnected ∨ s.state = ClientState.closed) := by
    simp [hc]
  have hcb : (disconnectF f s code reason r a b).1.callbacks = [] := by
    unfold disconnectF
    dsimp only
    rw [if_neg hne]
    split
    · rw [closeTransport_callbacks]
      exact clearConnectedState_callbacks s _ _ _
    · split
      · rw [closeTransport_callbacks]
        split
        · rw [setState_callbacks]
          exact clearConnectedState_callbacks s _ _ _
        · rw [setState_callbacks]
          exact clearConnectedState_callbacks s _ _ _
      · rw [closeTransport_callbacks]
        split
        · cases f with
          | zero =>
            rw [setState_callbacks]
            exact clearConnectedState_callbacks s _ _ _
          | succ n =>
            rw [rejectPromisesF_callbacks, setState_callbacks]
            exact disconnectF_callbacks_empty n _ 0 "closing" false true true
              (by rw [setState_callbacks, clearConnectedState_callbacks])
        · rw [setState_callbacks]
          exact clearConnectedState_callbacks s _ _ _
  have hfilter : ((disconnectF f s code reason r a b).2.filter isErrb) =
      errbTrace s.callbacks := by
    unfold disconnectF
    dsimp only
    rw [if_neg hne]
    split
    · rw [List.filter_append, clearConnectedState_filter, filter_isErrb_closeTransport]
      simp
    · split
      · rw [List.filter_append, List.filter_append, List.filter_append,
          clearConnectedState_filter, filter_isErrb_setState, filter_isErrb_closeTransport]
        split
        · simp [isErrb]
        · simp
      · rw [List.filter_append, List.filter_append, List.filter_append,
          clearConnectedState_filter, filter_isErrb_setState, filter_isErrb_closeTransport]
        split
        · cases f with
          | zero => simp [isErrb]
          | succ n =>
            rw [List.filter_cons_of_neg (by simp [isErrb]),
              List.filter_append, List.filter_append, List.filter_append]
            rw [disconnectF_filter_empty n _ 0 "closing" false true true
              (by rw [setState_callbacks, clearConnectedState_callbacks])]
            rw [filter_isErrb_setState, filter_isErrb_rejectPromises]
            simp [isErrb]
        · simp
  have hmap := errbTrace_map s.callbacks hEb
  refine ⟨hcb, hfilter.trans hmap, ?_, ?_⟩
  · intro p hp
    have h1 : isErrb (Ev.errback p.1 disconnectedError) = true := rfl
    rw [← List.count_filter (p := isErrb) h1, hfilter, hmap]
    have hinj : Function.Injective (fun id : Nat => Ev.errback id disconnectedError) := by
      intro x y hxy
      simpa using hxy
    have hrw : s.callbacks.map (fun q => Ev.errback q.1 disconnectedError) =
        (s.callbacks.map Prod.fst).map (fun id => Ev.errback id disconnectedError) := by
      rw [List.map_map]
      rfl
    rw [hrw]
    have hnd2 := hNd.map hinj
    have hmem : Ev.errback p.1 disconnectedError ∈
        (s.callbacks.map Prod.fst).map (fun id => Ev.errback id disconnectedError) :=
      List.mem_map_of_mem _ (List.mem_map_of_mem _ hp)
    exact List.count_eq_one_of_mem hnd2 hmem
  · intro hm1
    unfold disconnectF
    dsimp only
    rw [if_neg hne, if_neg hm1]
    split
    · rw [closeTransport_state]
      intro hx
      split at hx
      · rw [setState_fst_state] at hx
        exact ClientState.noConfusion hx
      · rw [setState_fst_state] at hx
        exact ClientState.noConfusion hx
    · rw [closeTransport_state]
      intro hx
      split at hx
      · cases f with
        | zero =>
          rw [setState_fst_state] at hx
          exact ClientState.noConfusion hx
        | succ n =>
          rw [rejectPromisesF_state, setState_fst_state] at hx
          exact ClientState.noConfusion hx
      · rw [setState_fst_state] at hx
        exact ClientState.noConfusion hx

theorem c1_witness :
    c1state.state = ClientState.connected ∧
    (∀ p ∈ c1state.callbacks, p.2.hasErrback = true) ∧
    (c1state.callbacks.map Prod.fst).Nodup ∧
    ((disconnectF 8 c1state 4 "connection closed" true false false).1.callbacks = [] ∧
     ((disconnectF 8 c1state 4 "connection closed" true false false).2.filter isErrb) =
       c1state.callbacks.map (fun p => Ev.errback p.1 disconnectedError) ∧
     (∀ p ∈ c1state.callbacks,
       ((disconnectF 8 c1state 4 "connection closed" true false false).2.count
         (Ev.errback p.1 disconnectedError)) = 1) ∧
     (4 ≠ -1 → (disconnectF 8 c1state 4 "connection closed" true false false).1.state ≠
       ClientState.connected)) :=
  ⟨by decide, by decide, by decide,
   c1_disconnect_rejects_inflight 8 c1state 4 "connection closed" true false false
     (by decide) (by decide) (by decide)⟩

/-! ## Claim C2 -/

theorem runD_succ (k : Nat) (st : DispSt) :
    runD (k + 1) st = (match dstep st with
      | none => st
      | some st2 => runD k st2) := rfl

theorem dstep_none_runD (k : Nat) (st : DispSt) (h : dstep st = none) :
    runD k st = st := by
  cases k with
  | zero => rfl
  | succ n =>
    rw [runD_succ, h]

theorem runD_add (m k : Nat) : ∀ st : DispSt, runD (m + k) st = runD k (runD m st) := by
  induction m with
  | zero =>
    intro st
    rw [Nat.zero_add]
    rfl
  | succ n ih =>
    intro st
    have hm : n + 1 + k = (n + k) + 1 := by omega
    rw [hm, runD_succ, runD_succ]
    cases h : dstep st with
    | none => rw [dstep_none_runD k st h]
    | some st2 => exact ih st2

/-- Running one well-formed item from its begin: the handler emits its events
in order and its next call hands control back to the chain. -/
theorem runD_item (es : List Nat) (i : Nat) (q : List (Nat × List HAct)) :
    ∀ t : List DStep,
      runD (es.length + 1)
        { trace := t, current := some (i, es.map HAct.emitA ++ [HAct.nextA]), queue := q } =
      { trace := t ++ es.map DStep.emitStep ++ [DStep.nextStep i], current := none,
        queue := q } := by
  induction es with
  | nil =>
    intro t
    rw [show ([] : List Nat).length + 1 = 0 + 1 from rfl, runD_succ]
    simp [dstep, runD]
  | cons e rest ih =>
    intro t
    rw [show (e :: rest).length + 1 = (rest.length + 1) + 1 from rfl, runD_succ]
    have hstep :
        dstep
          { trace := t, current := some (i, (e :: rest).map HAct.emitA ++ [HAct.nextA]),
            queue := q } =
        some
          { trace := t ++ [DStep.emitStep e],
            current := some (i, rest.map HAct.emitA ++ [HAct.nextA]), queue := q } := rfl
    rw [hstep]
    dsimp only
    rw [ih (t ++ [DStep.emitStep e])]
    simp

theorem canonicalTrace_cons (p : Nat × List HAct) (rest : List (Nat × List HAct)) :
    canonicalTrace (p :: rest) = itemTrace p ++ canonicalTrace rest := by
  unfold canonicalTrace
  simp

theorem itemTrace_wf (p : Nat × List HAct) (es : List Nat)
    (hes : p.2 = es.map HAct.emitA ++ [HAct.nextA]) :
    itemTrace p = DStep.beginStep p.1 ::
      (es.map DStep.emitStep ++ [DStep.nextStep p.1]) := by
  unfold itemTrace
  rw [hes]
  simp [List.map_map]

/-- The dispatch chain processes the decoded items strictly in order: the
full run produces exactly the canonical wire-order trace. -/
theorem runD_canonical :
    ∀ (items : List (Nat × List HAct)), (∀ p ∈ items, wfItem p) →
      ∀ t : List DStep,
        runD (dsize items) { trace := t, current := none, queue := items } =
        { trace := t ++ canonicalTrace items, current := none, queue := [] } := by
  intro items
  induction items with
  | nil =>
    intro _ t
    simp [dsize, runD, canonicalTrace]
  | cons p rest ih =>
    intro h t
    obtain ⟨es, hes⟩ := h p (by simp)
    have hlen : p.2.length = es.length + 1 := by
      rw [hes]
      simp
    have hd : dsize (p :: rest) = 1 + ((es.length + 1) + dsize rest) := by
      show p.2.length + 1 + dsize rest = _
      omega
    rw [hd, runD_add, runD_add]
    have h1 : runD 1 { trace := t, current := none, queue := p :: rest } =
        { trace := t ++ [DStep.beginStep p.1], current := some (p.1, p.2), queue := rest } := by
      rw [runD_succ]
      rfl
    rw [h1]
    rw [show (p.1, p.2) = (p.1, es.map HAct.emitA ++ [HAct.nextA]) from by rw [← hes]]
    rw [runD_item es p.1 rest (t ++ [DStep.beginStep p.1])]
    rw [ih (fun q hq => h q (by simp [hq]))]
    rw [canonicalTrace_cons, itemTrace_wf p es hes]
    simp

theorem emitsOf_append (l1 l2 : List DStep) :
    emitsOf (l1 ++ l2) = emitsOf l1 ++ emitsOf l2 := by
  unfold emitsOf
  simp

theorem emitsOf_itemTrace (p : Nat × List HAct) :
    emitsOf (itemTrace p) = actEmits p.2 := by
  unfold itemTrace emitsOf actEmits
  rw [List.filterMap_cons]
  dsimp only
  induction p.2 with
  | nil => rfl
  | cons a rest ih =>
    cases a with
    | emitA tg =>
      simp only [List.map_cons, List.filterMap_cons]
      rw [ih]
    | nextA =>
      simp only [List.map_cons, List.filterMap_cons]
      rw [ih]

theorem emitsOf_canonical (items : List (Nat × List HAct)) :
    emitsOf (canonicalTrace items) = (items.map (fun p => actEmits p.2)).flatten := by
  induction items with
  | nil => rfl
  | cons p rest ih =>
    rw [canonicalTrace_cons, emitsOf_append, emitsOf_itemTrace, ih]
    simp

theorem canonicalTrace_append (l1 l2 : List (Nat × List HAct)) :
    canonicalTrace (l1 ++ l2) = canonicalTrace l1 ++ canonicalTrace l2 := by
  unfold canonicalTrace
  simp

/-- C2: the serial dispatch chain of `_dispatchSynchronized` guarantees
wire order. For every decoded frame whose N handlers each emit their events
and then invoke their next continuation (as every handler in the source
does), the complete run of the chain produces exactly the canonical trace:
item i's begin, its emissions in order, its next-call, then item i+1 - so
the user-visible emissions equal the decoded order, and (third conjunct,
any split point n) every step of the first n items, including their next
calls, precedes every step - even the begin - of the remaining items:
processing of item i+1 does not begin until handler i has called next, no
matter how late (asynchronously) that handler resolves. -/
theorem c2_dispatch_wire_order :
    ∀ items : List (Nat × List HAct),
      (∀ p ∈ items, wfItem p) →
      (runD (dsize items) { queue := items } : DispSt).trace = canonicalTrace items ∧
      emitsOf (runD (dsize items) { queue := items } : DispSt).trace =
        (items.map (fun p => actEmits p.2)).flatten ∧
      (∀ n : Nat,
        (runD (dsize items) { queue := items } : DispSt).trace =
          canonicalTrace (items.take n) ++ canonicalTrace (items.drop n)) := by
  intro items h
  have hrun := runD_canonical items h []
  have htr : (runD (dsize items) { queue := items } : DispSt).trace =
      canonicalTrace items := by
    rw [hrun]
    simp
  refine ⟨htr, ?_, ?_⟩
  · rw [htr, emitsOf_canonical]
  · intro n
    rw [htr, ← canonicalTrace_append, List.take_append_drop]

theorem c2_witness :
    (∀ p ∈ c2items, wfItem p) ∧
    (runD (dsize c2items) { queue := c2items } : DispSt).trace = canonicalTrace c2items ∧
    emitsOf (runD (dsize c2items) { queue := c2items } : DispSt).trace = [10, 11, 12] := by
  have hwf : ∀ p ∈ c2items, wfItem p := by
    intro p hp
    simp only [c2items, List.mem_cons, List.not_mem_nil, or_false] at hp
    rcases hp with h | h | h
    · exact ⟨[10], by subst h; rfl⟩
    · exact ⟨[], by subst h; rfl⟩
    · exact ⟨[11, 12], by subst h; rfl⟩
  have h := c2_dispatch_wire_order c2items hwf
  refine ⟨hwf, h.1, ?_⟩
  rw [h.2.1]
  decide

/-! ## Claim C4 -/

theorem aget_aset_self {α : Type} (k : Nat) (v : α) :
    ∀ l : List (Nat × α), aget k (aset k v l) = some v := by
  intro l
  induction l with
  | nil => simp [aget, aset]
  | cons q rest ih =>
    by_cases hq : q.1 = k
    · simp [aget, aset, hq]
    · simp only [aset, if_neg hq]
      rw [show aget k ((q.1, q.2) :: aset k v rest) = aget k (aset k v rest) from by
        simp [aget, hq]]
      exact ih

theorem aget_aset_ne {α : Type} (k k2 : Nat) (v : α) (hne : k2 ≠ k) :
    ∀ l : List (Nat × α), aget k (aset k2 v l) = aget k l := by
  intro l
  induction l with
  | nil => simp [aget, aset, hne]
  | cons q rest ih =>
    by_cases hq : q.1 = k2
    · simp [aget, aset, hq, hne]
    · by_cases hk : q.1 = k
      · simp [aget, aset, hq, hk, Ne.symm hne]
      · simp only [aset, if_neg hq]
        simp only [aget, if_neg hk]
        exact ih

theorem aset_keys_mem {α : Type} (k x : Nat) (v : α) :
    ∀ l : List (Nat × α), x ∈ (aset k v l).map Prod.fst → x = k ∨ x ∈ l.map Prod.fst := by
  intro l
  induction l with
  | nil => simp [aset]
  | cons q rest ih =>
    by_cases hq : q.1 = k
    · simp only [aset, if_pos hq, List.map_cons, List.mem_cons]
      rintro (h | h)
      · exact Or.inl h
      · exact Or.inr (by simp [h])
    · simp only [aset, if_neg hq, List.map_cons, List.mem_cons]
      rintro (h | h)
      · exact Or.inr (by simp [h])
      · rcases ih h with h2 | h2
        · exact Or.inl h2
        · exact Or.inr (by simp [h2])

theorem aset_nodup {α : Type} (k : Nat) (v : α) :
    ∀ l : List (Nat × α), (l.map Prod.fst).Nodup → ((aset k v l).map Prod.fst).Nodup := by
  intro l
  induction l with
  | nil => simp [aset]
  | cons q rest ih =>
    intro h
    rw [List.map_cons, List.nodup_cons] at h
    by_cases hq : q.1 = k
    · simp only [aset, if_pos hq, List.map_cons, List.nodup_cons]
      exact ⟨by rw [← hq]; exact h.1, h.2⟩
    · simp only [aset, if_neg hq, List.map_cons, List.nodup_cons]
      refine ⟨?_, ih h.2⟩
      intro hmem
      rcases aset_keys_mem k q.1 v rest hmem with h2 | h2
      · exact hq h2
      · exact h.1 h2

theorem aset_keys_fresh {α : Type} (k : Nat) (v : α) :
    ∀ l : List (Nat × α), (∀ p ∈ l, p.1 ≠ k) →
      (aset k v l).map Prod.fst = l.map Prod.fst ++ [k] := by
  intro l
  induction l with
  | nil => simp [aset]
  | cons q rest ih =>
    intro h
    have hq : q.1 ≠ k := h q (by simp)
    simp only [aset, if_neg hq, List.map_cons, List.cons_append]
    rw [ih (fun p hp => h p (by simp [hp]))]

/-- Core counting lemma for the settle-all passes: filtering the events a
pass emits (one `g id` per still-pending record) down to the waiter w
yields exactly its own outcome, provided ids are unique. -/
theorem filter_maker (pr : Ev → Bool) (g : Nat → Ev) (w : Nat)
    (hg : ∀ x, pr (g x) = decide (x = w)) :
    ∀ l : List (Nat × PromiseRec), (l.map Prod.fst).Nodup →
      ((l.filterMap fun p => if p.2.settled = none then some (g p.1) else none).filter pr) =
      (match aget w l with
       | some rec2 => if rec2.settled = none then [g w] else []
       | none => []) := by
  have hnot : ∀ l : List (Nat × PromiseRec), (∀ p ∈ l, p.1 ≠ w) →
      ((l.filterMap fun p => if p.2.settled = none then some (g p.1) else none).filter pr) =
        [] := by
    intro l
    induction l with
    | nil => intro _; rfl
    | cons q rest ih =>
      intro h
      have hq : q.1 ≠ w := h q (by simp)
      by_cases hs : q.2.settled = none
      · simp only [List.filterMap_cons, if_pos hs]
        rw [List.filter_cons_of_neg (by rw [hg]; simp [hq])]
        exact ih (fun p hp => h p (by simp [hp]))
      · simp only [List.filterMap_cons, if_neg hs]
        exact ih (fun p hp => h p (by simp [hp]))
  intro l
  induction l with
  | nil => intro _; rfl
  | cons q rest ih =>
    intro hnd
    rw [List.map_cons, List.nodup_cons] at hnd
    by_cases hq : q.1 = w
    · have hrest : ∀ p ∈ rest, p.1 ≠ w := by
        intro p hp heq
        apply hnd.1
        have hmem : p.1 ∈ rest.map Prod.fst := List.mem_map_of_mem Prod.fst hp
        rw [heq, ← hq] at hmem
        exact hmem
      rw [show aget w (q :: rest) = some q.2 from by simp [aget, hq]]
      dsimp only
      by_cases hs : q.2.settled = none
      · simp only [List.filterMap_cons, if_pos hs]
        rw [List.filter_cons_of_pos (by rw [hg]; simp [hq])]
        rw [hnot rest hrest, hq]
      · simp only [List.filterMap_cons, if_neg hs]
        rw [hnot rest hrest]
    · rw [show aget w (q :: rest) = aget w rest from by simp [aget, hq]]
      by_cases hs : q.2.settled = none
      · simp only [List.filterMap_cons, if_pos hs]
        rw [List.filter_cons_of_neg (by rw [hg]; simp [hq])]
        exact ih hnd.2
      · simp only [List.filterMap_cons, if_neg hs]
        exact ih hnd.2

theorem filterW_errbTrace (w : Nat) (cbs : List (Nat × CallbackRec)) :
    (errbTrace cbs).filter (isWEv w) = [] := by
  unfold errbTrace
  induction cbs with
  | nil => rfl
  | cons q rest ih =>
    by_cases hq : q.2.hasErrback = true
    · simp only [List.filterMap_cons, if_pos hq]
      rw [List.filter_cons_of_neg (by simp [isWEv])]
      exact ih
    · simp only [List.filterMap_cons, if_neg hq]
      exact ih

theorem filterW_clearSubsTrace (w : Nat) (subs : List (String × Sub)) :
    (clearSubsTrace subs).filter (isWEv w) = [] := by
  unfold clearSubsTrace
  induction subs with
  | nil => rfl
  | cons q rest ih =>
    by_cases hq : q.2.st = SubSt.subscribed
    · simp only [List.filterMap_cons, if_pos hq]
      rw [List.filter_cons_of_neg (by simp [isWEv])]
      exact ih
    · simp only [List.filterMap_cons, if_neg hq]
      exact ih

theorem filterW_unsubMap (w : Nat) (l : List (String × ServerSub)) :
    ((l.map fun p => Ev.unsubscribeEv p.1).filter (isWEv w)) = [] := by
  induction l with
  | nil => rfl
  | cons q rest ih =>
    simp only [List.map_cons]
    rw [List.filter_cons_of_neg (by simp [isWEv])]
    exact ih

theorem filterW_clearConnectedState (w : Nat) (s : CState) (r a b : Bool) :
    ((clearConnectedState s r a b).2.filter (isWEv w)) = [] := by
  unfold clearConnectedState stopPing
  dsimp only
  split
  · rw [List.filter_append, List.filter_append, filterW_clearSubsTrace, filterW_errbTrace]
    split
    · rw [filterW_unsubMap]
      rfl
    · rfl
  · rw [List.filter_append, List.filter_append, filterW_clearSubsTrace, filterW_errbTrace]
    split
    · rw [filterW_unsubMap]
      rfl
    · rfl

theorem filterW_setState (w : Nat) (s : CState) (st : ClientState) :
    ((setState s st).2.filter (isWEv w)) = [] := by
  unfold setState
  split <;> rfl

theorem filterW_closeTransport (w : Nat) (s : CState) :
    ((closeTransport s).2.filter (isWEv w)) = [] := by
  unfold closeTransport
  split <;> rfl

theorem clearConnectedState_promises (s : CState) (r a b : Bool) :
    (clearConnectedState s r a b).1.promises = s.promises := by
  unfold clearConnectedState stopPing
  dsimp only
  split <;> split <;> split <;> rfl

theorem setState_promises (s : CState) (st : ClientState) :
    (setState s st).1.promises = s.promises := by
  unfold setState
  split <;> rfl

theorem closeTransport_promises (s : CState) :
    (closeTransport s).1.promises = s.promises := by
  unfold closeTransport
  split <;> rfl

theorem rejectPromisesF_promises (s : CState) (v : RejectVal) :
    (rejectPromisesF s v).1.promises = [] := rfl

theorem filterW_rejectPromises (w : Nat) (s : CState)
    (hnd : (s.promises.map Prod.fst).Nodup) :
    ((rejectPromisesF s RejectVal.stateClosed).2.filter (isWEv w)) =
      settleOutcome w s.promises RejectVal.stateClosed := by
  unfold rejectPromisesF settleOutcome
  dsimp only
  exact filter_maker (isWEv w) (fun x => Ev.promiseRejected x RejectVal.stateClosed) w
    (fun x => rfl) s.promises hnd

/-- The promise-table footprint of `_disconnect`: either it leaves the table
alone and emits nothing for any waiter, or (through the nested
`_close(SERVER, true, true)`) it empties the table and emits exactly the
pending waiters' closed-state rejections. -/
theorem disconnectF_wEvents (w : Nat) :
    ∀ (f : Nat) (s : CState) (code : Int) (reason : String) (r a b : Bool),
      (s.promises.map Prod.fst).Nodup →
      ((disconnectF f s code reason r a b).1.promises = s.promises ∧
        ((disconnectF f s code reason r a b).2.filter (isWEv w)) = []) ∨
      ((disconnectF f s code reason r a b).1.promises = [] ∧
        ((disconnectF f s code reason r a b).2.filter (isWEv w)) =
          settleOutcome w s.promises RejectVal.stateClosed) := by
  intro f
  induction f with
  | zero =>
    intro s code reason r a b hnd
    unfold disconnectF
    dsimp only
    split
    · split
      · exact Or.inl ⟨clearConnectedState_promises s _ _ _,
          filterW_clearConnectedState w s _ _ _⟩
      · exact Or.inl ⟨rfl, rfl⟩
    · split
      · refine Or.inl ⟨?_, ?_⟩
        · rw [closeTransport_promises, clearConnectedState_promises]
        · rw [List.filter_append, filterW_clearConnectedState, filterW_closeTransport]
          rfl
      · split
        · refine Or.inl ⟨?_, ?_⟩
          · rw [closeTransport_promises]
            split
            · rw [setState_promises, clearConnectedState_promises]
            · rw [setState_promises, clearConnectedState_promises]
          · rw [List.filter_append, List.filter_append, List.filter_append,
              filterW_clearConnectedState, filterW_setState, filterW_closeTransport]
            split
            · rfl
            · rfl

        · refine Or.inl ⟨?_, ?_⟩
          · rw [closeTransport_promises]
            split
            · rw [setState_promises, clearConnectedState_promises]
            · rw [setState_promises, clearConnectedState_promises]
          · rw [List.filter_append, List.filter_append, List.filter_append,
              filterW_clearConnectedState, filterW_setState, filterW_closeTransport]
            split
            · simp [isWEv]
            · rfl
  | succ n ih =>
    intro s code reason r a b hnd
    unfold disconnectF
    dsimp only
    split
    · split
      · exact Or.inl ⟨clearConnectedState_promises s _ _ _,
          filterW_clearConnectedState w s _ _ _⟩
      · exact Or.inl ⟨rfl, rfl⟩
    · split
      · refine Or.inl ⟨?_, ?_⟩
        · rw [closeTransport_promises, clearConnectedState_promises]
        · rw [List.filter_append, filterW_clearConnectedState, filterW_closeTransport]
          rfl
      · split
        · refine Or.inl ⟨?_, ?_⟩
          · rw [closeTransport_promises]
            split
            · rw [setState_promises, clearConnectedState_promises]
            · rw [setState_promises, clearConnectedState_promises]
          · rw [List.filter_append, List.filter_append, List.filter_append,
              filterW_clearConnectedState, filterW_setState, filterW_closeTransport]
            split
            · rfl
            · rfl

        · split
          · -- needDisconnectEvent: the nested _close(SERVER, true, true)
            set s2 := (setState
              (clearConnectedState s r a b).1 ClientState.disconnected).1 with hs2
            have hs2p : s2.promises = s.promises := by
              rw [hs2, setState_promises, clearConnectedState_promises]
            have hnd2 : (s2.promises.map Prod.fst).Nodup := by rw [hs2p]; exact hnd
            rcases ih s2 0 "closing" false true true hnd2 with ⟨hp, he⟩ | ⟨hp, he⟩
            · refine Or.inr ⟨?_, ?_⟩
              · rw [closeTransport_promises, rejectPromisesF_promises]
              · rw [List.filter_append, List.filter_append, List.filter_append,
                  filterW_clearConnectedState, filterW_setState, filterW_closeTransport]
                rw [List.filter_cons_of_neg (by simp [isWEv]),
                  List.filter_append, List.filter_append, List.filter_append, he,
                  filterW_setState]
                rw [show ([Ev.closeEv CloseReason.server].filter (isWEv w)) = [] from rfl]
                have hnd3 : ((setState (disconnectF n s2 0 "closing" false true
                    true).1 ClientState.closed).1.promises.map Prod.fst).Nodup := by
                  simp only [setState_promises, hp, hs2p]
                  exact hnd
                rw [filterW_rejectPromises w _ hnd3]
                simp only [setState_promises, clearConnectedState_promises, hp, hs2p]
                simp
            · refine Or.inr ⟨?_, ?_⟩
              · rw [closeTransport_promises, rejectPromisesF_promises]
              · rw [List.filter_append, List.filter_append, List.filter_append,
                  filterW_clearConnectedState, filterW_setState, filterW_closeTransport]
                rw [List.filter_cons_of_neg (by simp [isWEv]),
                  List.filter_append, List.filter_append, List.filter_append, he,
                  filterW_setState]
                rw [show ([Ev.closeEv CloseReason.server].filter (isWEv w)) = [] from rfl]
                have hnd3 : ((setState (disconnectF n s2 0 "closing" false true
                    true).1 ClientState.closed).1.promises.map Prod.fst).Nodup := by
                  simp [setState_promises, hp]
                rw [filterW_rejectPromises w _ hnd3]
                simp only [setState_promises, clearConnectedState_promises, hp, hs2p]
                simp [settleOutcome, aget]
          · refine Or.inl ⟨?_, ?_⟩
            · rw [closeTransport_promises, setState_promises, clearConnectedState_promises]
            · rw [List.filter_append, List.filter_append, List.filter_append,
                filterW_clearConnectedState, filterW_setState, filterW_closeTransport]
              rfl

theorem settleOutcome_live (w : Nat) (l : List (Nat × PromiseRec)) (v : RejectVal) (d : Nat)
    (h : aget w l = some { timeoutDelay := some d, settled := none }) :
    settleOutcome w l v = [Ev.promiseRejected w v] := by
  unfold settleOutcome
  rw [h]
  simp

theorem settleOutcome_done (w : Nat) (l : List (Nat × PromiseRec)) (v : RejectVal)
    (h : aget w l = none ∨ ∃ rec2, aget w l = some rec2 ∧ rec2.settled ≠ none) :
    settleOutcome w l v = [] := by
  unfold settleOutcome
  rcases h with h | ⟨rec2, h, hs⟩
  · rw [h]
  · rw [h]
    simp [hs]

/-- `_close` settles every still-pending connected-waiter with the closed
state exactly once (whether the rejection happens in the nested
`_close(SERVER, ...)` or in the outer one) and empties the waiter table. -/
theorem closeF_wEvents (w f : Nat) (s : CState) (reason : CloseReason) (a b : Bool)
    (hnd : (s.promises.map Prod.fst).Nodup) :
    (closeF f s reason a b).1.promises = [] ∧
    ((closeF f s reason a b).2.filter (isWEv w)) =
      settleOutcome w s.promises RejectVal.stateClosed := by
  unfold closeF
  dsimp only
  rcases disconnectF_wEvents w f s 0 "closing" false a b hnd with ⟨hp, he⟩ | ⟨hp, he⟩
  · refine ⟨rejectPromisesF_promises _ _, ?_⟩
    rw [List.filter_append, List.filter_append, List.filter_append, he, filterW_setState]
    rw [show ([Ev.closeEv reason].filter (isWEv w)) = [] from rfl]
    have hnd2 : (((setState (disconnectF f s 0 "closing" false a b).1
        ClientState.closed).1).promises.map Prod.fst).Nodup := by
      simp only [setState_promises, hp]
      exact hnd
    rw [filterW_rejectPromises w _ hnd2]
    simp only [setState_promises, hp]
    simp
  · refine ⟨rejectPromisesF_promises _ _, ?_⟩
    rw [List.filter_append, List.filter_append, List.filter_append, he, filterW_setState]
    rw [show ([Ev.closeEv reason].filter (isWEv w)) = [] from rfl]
    have hnd2 : (((setState (disconnectF f s 0 "closing" false a b).1
        ClientState.closed).1).promises.map Prod.fst).Nodup := by
      simp [setState_promises, hp]
    rw [filterW_rejectPromises w _ hnd2]
    simp only [setState_promises, hp]
    simp [settleOutcome, aget]

theorem thenTrace_eq (l : List (Nat × PromiseRec)) :
    ((l.filterMap fun p => if p.2.settled = none then some (Ev.promiseResolved p.1)
        else none).filterMap fun e =>
      match e with
      | Ev.promiseResolved id => some (Ev.cmdIssued id)
      | _ => none) =
    l.filterMap fun p => if p.2.settled = none then some (Ev.cmdIssued p.1) else none := by
  induction l with
  | nil => rfl
  | cons q rest ih =>
    by_cases hs : q.2.settled = none
    · simp only [List.filterMap_cons, if_pos hs]
      rw [ih]
    · simp only [List.filterMap_cons, if_neg hs]
      exact ih

theorem applyOp_connected_live (w : Nat) (s : CState) (hlive : LiveAt w s) :
    ((applyOp s COp.opConnected).2.filter (isWEv w)) =
      [Ev.promiseResolved w, Ev.cmdIssued w] ∧
    DoneAt w (applyOp s COp.opConnected).1 := by
  obtain ⟨⟨d, hw⟩, hnd⟩ := hlive
  have h1 := filter_maker (isWEv w) Ev.promiseResolved w (fun x => rfl) s.promises hnd
  have h2 := filter_maker (isWEv w) Ev.cmdIssued w (fun x => rfl) s.promises hnd
  rw [hw] at h1 h2
  simp at h1 h2
  unfold applyOp resolvePromisesF
  dsimp only
  constructor
  · rw [List.filter_append, h1, thenTrace_eq, h2]
    rfl
  · unfold DoneAt
    exact ⟨Or.inl (by simp [aget]), by simp⟩

theorem applyOp_connected_done (w : Nat) (s : CState) (h : DoneAt w s) :
    ((applyOp s COp.opConnected).2.filter (isWEv w)) = [] ∧
    DoneAt w (applyOp s COp.opConnected).1 := by
  obtain ⟨hw, hnd⟩ := h
  have h1 := filter_maker (isWEv w) Ev.promiseResolved w (fun x => rfl) s.promises hnd
  have h2 := filter_maker (isWEv w) Ev.cmdIssued w (fun x => rfl) s.promises hnd
  have e1 : ((s.promises.filterMap fun p => if p.2.settled = none
      then some (Ev.promiseResolved p.1) else none).filter (isWEv w)) = [] := by
    rw [h1]
    rcases hw with hn | ⟨rec2, hs, hne⟩
    · rw [hn]
    · rw [hs]
      simp [hne]
  have e2 : ((s.promises.filterMap fun p => if p.2.settled = none
      then some (Ev.cmdIssued p.1) else none).filter (isWEv w)) = [] := by
    rw [h2]
    rcases hw with hn | ⟨rec2, hs, hne⟩
    · rw [hn]
    · rw [hs]
      simp [hne]
  unfold applyOp resolvePromisesF
  dsimp only
  constructor
  · rw [List.filter_append, e1, thenTrace_eq, e2]
    rfl
  · unfold DoneAt
    exact ⟨Or.inl (by simp [aget]), by simp⟩

theorem applyOp_close_live (w : Nat) (s : CState) (hlive : LiveAt w s) :
    ((applyOp s COp.opClose).2.filter (isWEv w)) =
      [Ev.promiseRejected w RejectVal.stateClosed] ∧
    DoneAt w (applyOp s COp.opClose).1 := by
  obtain ⟨⟨d, hw⟩, hnd⟩ := hlive
  have h := closeF_wEvents w 8 s CloseReason.client true false hnd
  refine ⟨?_, ?_⟩
  · show ((closeF 8 s CloseReason.client true false).2.filter (isWEv w)) = _
    rw [h.2, settleOutcome_live w s.promises _ d hw]
  · show DoneAt w (closeF 8 s CloseReason.client true false).1
    refine ⟨Or.inl (by rw [h.1]; rfl), ?_⟩
    rw [h.1]
    exact List.nodup_nil

theorem applyOp_close_done (w : Nat) (s : CState) (h : DoneAt w s) :
    ((applyOp s COp.opClose).2.filter (isWEv w)) = [] ∧
    DoneAt w (applyOp s COp.opClose).1 := by
  obtain ⟨hw, hnd⟩ := h
  have hc := closeF_wEvents w 8 s CloseReason.client true false hnd
  refine ⟨?_, ?_⟩
  · show ((closeF 8 s CloseReason.client true false).2.filter (isWEv w)) = _
    rw [hc.2, settleOutcome_done w s.promises _ hw]
  · show DoneAt w (closeF 8 s CloseReason.client true false).1
    refine ⟨Or.inl (by rw [hc.1]; rfl), ?_⟩
    rw [hc.1]
    exact List.nodup_nil

theorem applyOp_timer_live_self (w : Nat) (s : CState) (hlive : LiveAt w s) :
    ((applyOp s (COp.opTimerFire w)).2.filter (isWEv w)) =
      [Ev.promiseRejected w (RejectVal.errVal methodTimeoutError)] ∧
    DoneAt w (applyOp s (COp.opTimerFire w)).1 := by
  obtain ⟨⟨d, hw⟩, hnd⟩ := hlive
  show ((promiseTimerFire s w).2.filter (isWEv w)) = _ ∧ DoneAt w (promiseTimerFire s w).1
  unfold promiseTimerFire
  rw [hw]
  dsimp only
  refine ⟨by simp [isWEv], ?_, ?_⟩
  · refine Or.inr ⟨_, aget_aset_self w _ s.promises, by simp⟩
  · exact aset_nodup w _ s.promises hnd

theorem applyOp_timer_live_other (w id2 : Nat) (s : CState) (hlive : LiveAt w s)
    (hne : id2 ≠ w) :
    ((applyOp s (COp.opTimerFire id2)).2.filter (isWEv w)) = [] ∧
    LiveAt w (applyOp s (COp.opTimerFire id2)).1 := by
  obtain ⟨⟨d, hw⟩, hnd⟩ := hlive
  show ((promiseTimerFire s id2).2.filter (isWEv w)) = [] ∧
    LiveAt w (promiseTimerFire s id2).1
  unfold promiseTimerFire
  cases hg : aget id2 s.promises with
  | none => exact ⟨rfl, ⟨⟨d, hw⟩, hnd⟩⟩
  | some rec2 =>
    dsimp only
    cases ht : rec2.timeoutDelay with
    | none => exact ⟨rfl, ⟨⟨d, hw⟩, hnd⟩⟩
    | some dly =>
      dsimp only
      cases hs : rec2.settled with
      | some x => exact ⟨rfl, ⟨⟨d, hw⟩, hnd⟩⟩
      | none =>
        dsimp only
        refine ⟨by simp [isWEv, hne], ?_, ?_⟩
        · exact ⟨d, by rw [aget_aset_ne w id2 _ hne s.promises]; exact hw⟩
        · exact aset_nodup id2 _ s.promises hnd

theorem applyOp_timer_done (w id2 : Nat) (s : CState) (h : DoneAt w s) :
    ((applyOp s (COp.opTimerFire id2)).2.filter (isWEv w)) = [] ∧
    DoneAt w (applyOp s (COp.opTimerFire id2)).1 := by
  obtain ⟨hw, hnd⟩ := h
  show ((promiseTimerFire s id2).2.filter (isWEv w)) = [] ∧
    DoneAt w (promiseTimerFire s id2).1
  unfold promiseTimerFire
  cases hg : aget id2 s.promises with
  | none => exact ⟨rfl, ⟨hw, hnd⟩⟩
  | some rec2 =>
    dsimp only
    cases ht : rec2.timeoutDelay with
    | none => exact ⟨rfl, ⟨hw, hnd⟩⟩
    | some dly =>
      dsimp only
      cases hs : rec2.settled with
      | some x => exact ⟨rfl, ⟨hw, hnd⟩⟩
      | none =>
        dsimp only
        have hne : id2 ≠ w := by
          intro heq
          rw [heq] at hg
          rcases hw with hn | ⟨rec3, h3, hne3⟩
          · rw [hn] at hg
            exact Option.noConfusion hg
          · rw [h3] at hg
            have : rec3 = rec2 := by injection hg
            rw [this] at hne3
            exact hne3 hs
        refine ⟨by simp [isWEv, hne], ?_, ?_⟩
        · rcases hw with hn | ⟨rec3, h3, hne3⟩
          · exact Or.inl (by rw [aget_aset_ne w id2 _ hne s.promises]; exact hn)
          · exact Or.inr ⟨rec3, by rw [aget_aset_ne w id2 _ hne s.promises]; exact h3, hne3⟩
        · exact aset_nodup id2 _ s.promises hnd

theorem applyOp_done (w : Nat) (s : CState) (op : COp) (h : DoneAt w s) :
    ((applyOp s op).2.filter (isWEv w)) = [] ∧ DoneAt w (applyOp s op).1 := by
  cases op with
  | opConnected => exact applyOp_connected_done w s h
  | opClose => exact applyOp_close_done w s h
  | opTimerFire id2 => exact applyOp_timer_done w id2 s h

theorem runOps_done (w : Nat) :
    ∀ (ops : List COp) (s : CState), DoneAt w s →
      ((runOps s ops).2.filter (isWEv w)) = [] := by
  intro ops
  induction ops with
  | nil => intro s _; rfl
  | cons op rest ih =>
    intro s h
    have h1 := applyOp_done w s op h
    show ((applyOp s op).2 ++ (runOps (applyOp s op).1 rest).2).filter (isWEv w) = []
    rw [List.filter_append, h1.1, ih _ h1.2]
    rfl

/-- The waiter-visible trace of any happening sequence is exactly the
outcome dictated by the first relevant happening. -/
theorem runOps_live (w : Nat) :
    ∀ (ops : List COp) (s : CState), LiveAt w s →
      ((runOps s ops).2.filter (isWEv w)) = firstOutcomeFor w ops := by
  intro ops
  induction ops with
  | nil => intro s _; rfl
  | cons op rest ih =>
    intro s h
    show ((applyOp s op).2 ++ (runOps (applyOp s op).1 rest).2).filter (isWEv w) =
      firstOutcomeFor w (op :: rest)
    rw [List.filter_append]
    cases op with
    | opConnected =>
      have h1 := applyOp_connected_live w s h
      rw [h1.1, runOps_done w rest _ h1.2]
      rfl
    | opClose =>
      have h1 := applyOp_close_live w s h
      rw [h1.1, runOps_done w rest _ h1.2]
      rfl
    | opTimerFire id2 =>
      by_cases hid : id2 = w
      · subst hid
        have h1 := applyOp_timer_live_self id2 s h
        rw [h1.1, runOps_done id2 rest _ h1.2]
        simp [firstOutcomeFor]
      · have h1 := applyOp_timer_live_other w id2 s h hid
        rw [h1.1, ih _ h1.2]
        simp [firstOutcomeFor, hid]

/-- C4: gating of publish / history / presence / presenceStats / rpc / send
through `_methodCall`. While CONNECTED the call proceeds immediately. While
not CONNECTED the caller receives a freshly registered single-shot waiter
whose timeout timer is armed to the configured call timeout; then, whatever
sequence of happenings follows, the waiter-visible events are exactly those
of the first relevant happening: if the client next reaches CONNECTED the
waiter resolves and only then is the gated command issued (the resolution
event strictly precedes the issuance, and neither happens otherwise); if a
close comes first it rejects with the CLOSED state; if its timeout elapses
first it rejects with the timeout error; and in every case the waiter
settles at most once. -/
theorem c4_method_call_gating :
    (∀ s : CState, s.state = ClientState.connected →
      methodCall s = (s, MethodCallRes.proceed)) ∧
    (∀ s : CState, s.state ≠ ClientState.connected →
      (methodCall s).2 = MethodCallRes.waiter (s.promiseId + 1) ∧
      aget (s.promiseId + 1) (methodCall s).1.promises =
        some { timeoutDelay := some s.config.timeout, settled := none }) ∧
    (∀ s : CState, s.state ≠ ClientState.connected →
      (∀ p ∈ s.promises, p.1 ≤ s.promiseId) →
      (s.promises.map Prod.fst).Nodup →
      ∀ ops : List COp,
        ((runOps (methodCall s).1 ops).2.filter (isWEv (s.promiseId + 1))) =
          firstOutcomeFor (s.promiseId + 1) ops) := by
  refine ⟨?_, ?_, ?_⟩
  · intro s h
    unfold methodCall
    rw [if_pos h]
  · intro s h
    unfold methodCall
    rw [if_neg h]
    exact ⟨rfl, aget_aset_self _ _ _⟩
  · intro s h hIds hnd ops
    apply runOps_live
    unfold LiveAt
    constructor
    · refine ⟨s.config.timeout, ?_⟩
      show aget (s.promiseId + 1) (methodCall s).1.promises = _
      unfold methodCall
      rw [if_neg h]
      exact aget_aset_self _ _ _
    · show ((methodCall s).1.promises.map Prod.fst).Nodup
      unfold methodCall
      rw [if_neg h]
      exact aset_nodup _ _ _ hnd

theorem c4_witness :
    c4state.state ≠ ClientState.connected ∧
    (∀ p ∈ c4state.promises, p.1 ≤ c4state.promiseId) ∧
    (c4state.promises.map Prod.fst).Nodup ∧
    (methodCall c4state).2 = MethodCallRes.waiter (c4state.promiseId + 1) ∧
    ((runOps (methodCall c4state).1 [COp.opTimerFire 1, COp.opConnected]).2.filter
        (isWEv (c4state.promiseId + 1))) =
      [Ev.promiseRejected (c4state.promiseId + 1) (RejectVal.errVal methodTimeoutError)] := by
  have h2 := (c4_method_call_gating.2.1 c4state (by decide)).1
  have h3 := c4_method_call_gating.2.2 c4state (by decide) (by simp [c4state])
    (by decide) [COp.opTimerFire 1, COp.opConnected]
  refine ⟨by decide, by simp [c4state], by decide, h2, ?_⟩
  rw [h3]
  decide

end Centrifuge
